import Mathlib

/-!
Shallow embedding of the token-lifecycle, validation and service modules of
the repository (a Streamlit OSDU demo application), together with proofs of
the claims C1-C10 about it.

Modelling conventions:
* machine time is modelled as integer seconds (Int), so Python datetime
  comparisons and `total_seconds` appear at second granularity;
* Python `None` and fallible code are modelled with Option / Except;
* the HTTP layer, the Streamlit session state, the `st.cache_data` cache and
  the `.env` mirror are passed around explicitly as values;
* string primitives (strip, lower, endswith, replace, comparison) are
  re-implemented over the underlying character lists so that concrete
  instances evaluate inside the kernel.
-/

namespace PyPrim

/-- Characters removed by Python str.strip() (ASCII whitespace). -/
def isPySpace (c : Char) : Bool :=
  c = ' ' ∨ c = '\t' ∨ c = '\n' ∨ c = '\r' ∨ c = '\x0b' ∨ c = '\x0c'

/-- Model of Python str.strip() on the underlying character list. -/
def stripChars (l : List Char) : List Char :=
  ((l.dropWhile isPySpace).reverse.dropWhile isPySpace).reverse

/-- Model of Python str.strip(). -/
def pyStrip (s : String) : String :=
  String.mk (stripChars s.data)

/-- Model of Python str.lower() (ASCII case folding, which is all the
repository's inputs use). -/
def pyLower (s : String) : String :=
  String.mk (s.data.map Char.toLower)

/-- Model of Python str.upper() (ASCII case folding). -/
def pyUpper (s : String) : String :=
  String.mk (s.data.map Char.toUpper)

/-- Lexicographic code-point comparison of character lists: the order Python
uses to compare strings. -/
def lexLt : List Char → List Char → Bool
  | [], [] => false
  | [], _ :: _ => true
  | _ :: _, [] => false
  | a :: as, b :: bs =>
    if a.toNat < b.toNat then true
    else if a.toNat = b.toNat then lexLt as bs
    else false

/-- Model of Python string comparison a < b. -/
def strLt (a b : String) : Bool :=
  lexLt a.data b.data

/-- Insert a string into a strictly increasing list, dropping duplicates. -/
def insertStr (x : String) : List String → List String
  | [] => [x]
  | y :: ys =>
    if strLt x y then x :: y :: ys
    else if x = y then y :: ys
    else y :: insertStr x ys

/-- Model of Python sorted(set(l)) for lists of strings: a strictly
increasing, duplicate-free enumeration of the elements of l. -/
def pySortedSet : List String → List String
  | [] => []
  | x :: xs => insertStr x (pySortedSet xs)

/-- Truthiness of an optional string (Python: None and the empty string are
falsy). -/
def truthyOptStr (o : Option String) : Bool :=
  match o with
  | Option.none => false
  | Option.some s => s ≠ ""

end PyPrim

namespace StreamlitApp

/-!
Model of the workflow polling loop in src/streamlit_app.py (function main):

    for _ in range(60):
        status = wf_api.status(workflow_name, run_id)
        st.write("Status:", status.get("status", status))
        if status.get("status") in ("finished", "completed", "success", "failed", "error"):
            st.json(status)
            break
        time.sleep(5)

The status responses are an oracle statusAt : Nat -> Option String giving the
value of status.get("status") on the i-th request (None when the field is
missing).
-/

/-- The terminal workflow statuses listed in the loop condition. -/
def terminalStatuses : List String :=
  ["finished", "completed", "success", "failed", "error"]

/-- status.get("status") in (...): a missing status field is never terminal. -/
def isTerminal (s : Option String) : Bool :=
  match s with
  | Option.none => false
  | Option.some v => terminalStatuses.contains v

/-- Observable events of the polling loop: a status request (with its 0-based
index) or a sleep of the given number of seconds. -/
inductive PollEvent where
  | req : Nat → PollEvent
  | sleep : Nat → PollEvent
deriving DecidableEq, Repr

/-- The trace of the loop body starting at request index i with the given
number of loop iterations left. Each iteration issues one status request;
a non-terminal status is followed by time.sleep(5). -/
def pollAux (statusAt : Nat → Option String) : Nat → Nat → List PollEvent
  | _, 0 => []
  | i, fuel + 1 =>
    if isTerminal (statusAt i) then [PollEvent.req i]
    else PollEvent.req i :: PollEvent.sleep 5 :: pollAux statusAt (i + 1) fuel

/-- The full trace of `for _ in range(60)` polling. -/
def pollTrace (statusAt : Nat → Option String) : List PollEvent :=
  pollAux statusAt 0 60

/-- Number of status requests in a trace. -/
def reqCount : List PollEvent → Nat
  | [] => 0
  | PollEvent.req _ :: tl => reqCount tl + 1
  | PollEvent.sleep _ :: tl => reqCount tl

end StreamlitApp

namespace TokenManagerI

/-!
Instant-level model of src/auth/token_manager.py. Session state is the pair
(osdu_jwt, osdu_jwt_expires_at) plus the env_loaded marker; the .env mirror
is carried as a raw token string plus an optional already-parsed expiry
instant (the string-level parsing of the mirror is modelled separately in
the TokenStoreS namespace). Expiry datetimes are modelled by their UTC
instants in seconds.
-/

/-- Result of the token endpoint POST in fetch_new_jwt: the decoded JSON
body, keeping the two fields the code reads. access_token = none models a
body without an "access_token" key (the RuntimeError branch); expires_in =
none models a body without an "expires_in" key (defaulted to 3600). -/
structure FetchResp where
  access_token : Option String
  expires_in : Option Int
deriving DecidableEq, Repr

/-- Session plus .env state of token_manager.py. -/
structure TMState where
  osdu_jwt : Option String
  osdu_jwt_expires_at : Option Int
  env_loaded : Bool
  envJwt : String
  envExp : Option Int
deriving DecidableEq, Repr

/-- init_token_state: load the persisted token from .env once per session;
it is adopted only when the token string is non-empty and the stored expiry
is strictly in the future. -/
def init_token_state (s : TMState) (now : Int) : TMState :=
  if s.env_loaded then s
  else
    let s1 : TMState := { s with env_loaded := true }
    match (if s.envJwt = "" then Option.none else Option.some s.envJwt), s.envExp with
    | Option.some t, Option.some e =>
      if now < e then { s1 with osdu_jwt := Option.some t, osdu_jwt_expires_at := Option.some e }
      else s1
    | _, _ => s1

/-- fetch_new_jwt: POST to the token endpoint, raise RuntimeError when the
body has no access_token, otherwise store the token and its computed expiry
now + expires_in in session state and persist both to .env, returning the
token. The extra Nat in the result counts HTTP token requests (always 1). -/
def fetch_new_jwt (s : TMState) (now : Int) (resp : FetchResp) :
    Except String (String × TMState × Nat) :=
  match resp.access_token with
  | Option.none => Except.error "Token fetch failed"
  | Option.some tok =>
    let expiresIn : Int := resp.expires_in.getD 3600
    let expiresAt : Int := now + expiresIn
    Except.ok (tok,
      { s with
        osdu_jwt := Option.some tok
        osdu_jwt_expires_at := Option.some expiresAt
        envJwt := tok
        envExp := Option.some expiresAt }, 1)

/-- seconds_remaining: 0 with no stored expiry, otherwise the clamped number
of seconds until it. -/
def seconds_remaining (s : TMState) (now : Int) : Int :=
  match s.osdu_jwt_expires_at with
  | Option.none => 0
  | Option.some e => max 0 (e - now)

/-- ensure_valid_jwt with auto_refresh=True: initialise state, then return
the cached token unless it is missing, empty, without expiry, or within
early seconds of expiry, in which case fetch a new one. The Nat counts the
token requests issued. -/
def ensure_valid_jwt (s : TMState) (now early : Int) (resp : FetchResp) :
    Except String (Option String × TMState × Nat) :=
  let s1 := init_token_state s now
  let jwt := s1.osdu_jwt
  if jwt = Option.none ∨ jwt = Option.some "" ∨ s1.osdu_jwt_expires_at = Option.none then
    match fetch_new_jwt s1 now resp with
    | Except.ok (t, s2, n) => Except.ok (Option.some t, s2, n)
    | Except.error e => Except.error e
  else
    if seconds_remaining s1 now ≤ early then
      match fetch_new_jwt s1 now resp with
      | Except.ok (t, s2, n) => Except.ok (Option.some t, s2, n)
      | Except.error e => Except.error e
    else
      Except.ok (jwt, s1, 0)

end TokenManagerI

namespace AuthI

/-!
Instant-level model of src/osdu_app/auth.py. Session state holds osdu_token,
osdu_expires_at and the osdu_loaded_env marker; the st.cache_data(ttl=3300)
cache of _fetch_access_token_cached is a single optional entry carrying the
cached token response and the instant it was stored; the .env mirror is a
raw token string plus an optional expiry instant.
-/

/-- Token endpoint response body fields read by get_access_token. -/
structure TokenPayload where
  access_token : String
  expires_in : Option Int
deriving DecidableEq, Repr

/-- Session, cache and .env state of osdu_app/auth.py. -/
structure AuthState where
  osdu_token : Option String
  osdu_expires_at : Option Int
  osdu_loaded_env : Bool
  cache : Option (TokenPayload × Int)
  envTok : String
  envExp : Option Int
deriving DecidableEq, Repr

/-- _load_env_once: adopt the persisted (token, expiry) pair from .env on
the first call of the session, when the token is non-empty and the expiry
is strictly in the future. -/
def load_env_once (s : AuthState) (now : Int) : AuthState :=
  if s.osdu_loaded_env then s
  else
    let s1 : AuthState := { s with osdu_loaded_env := true }
    match (if s.envTok = "" then Option.none else Option.some s.envTok), s.envExp with
    | Option.some t, Option.some e =>
      if now < e then { s1 with osdu_token := Option.some t, osdu_expires_at := Option.some e }
      else s1
    | _, _ => s1

/-- _fetch_access_token_cached under st.cache_data(ttl=3300): return the
cached response while the entry is younger than 3300 seconds, otherwise
issue the HTTP request (the oracle payload) and store it. Returns the
payload, the new state and the number of HTTP token requests issued. -/
def fetch_access_token_cached (s : AuthState) (now : Int) (oracle : TokenPayload) :
    TokenPayload × AuthState × Nat :=
  match s.cache with
  | Option.some (p, t0) =>
    if now - t0 < 3300 then (p, s, 0)
    else (oracle, { s with cache := Option.some (oracle, now) }, 1)
  | Option.none => (oracle, { s with cache := Option.some (oracle, now) }, 1)

/-- get_access_token: load .env once, read the (cached) token response,
compute expiry = now + expires_in, and update session state and the .env
mirror only when the token changed or the stored expiry is missing or
already passed. Returns the token, the new state and the number of HTTP
token requests issued. -/
def get_access_token (s : AuthState) (now : Int) (oracle : TokenPayload) :
    String × AuthState × Nat :=
  let s1 := load_env_once s now
  let r := fetch_access_token_cached s1 now oracle
  let p := r.1
  let s2 := r.2.1
  let fetches := r.2.2
  let token := p.access_token
  let expiresIn : Int := p.expires_in.getD 3600
  let expiresAt : Int := now + expiresIn
  let shouldUpdate : Bool :=
    (s2.osdu_token ≠ Option.some token) ||
      (match s2.osdu_expires_at with
       | Option.none => true
       | Option.some e => e ≤ now)
  if shouldUpdate then
    (token,
      { s2 with
        osdu_token := Option.some token
        osdu_expires_at := Option.some expiresAt
        envTok := token
        envExp := Option.some expiresAt }, fetches)
  else (token, s2, fetches)

/-- refresh_access_token: clear the st.cache_data entry, then fetch. -/
def refresh_access_token (s : AuthState) (now : Int) (oracle : TokenPayload) :
    String × AuthState × Nat :=
  get_access_token { s with cache := Option.none } now oracle

/-- seconds_remaining of osdu_app/auth.py: 0 with no stored expiry,
otherwise the clamped number of seconds until it. -/
def seconds_remaining (exp : Option Int) (now : Int) : Int :=
  match exp with
  | Option.none => 0
  | Option.some e => max 0 (e - now)

end AuthI

namespace AuthUIM

/-!
Model of the auto-refresh section of render_auth_status in
src/osdu_app/auth_ui.py (the near-expiry branch and the expired branch).
Inputs: the current token value, the remaining seconds rem (computed once
per pass), the early-refresh threshold, the recorded guard value
_auto_refreshed_for_token, and whether refresh_access_token succeeds.
Output: (number of refresh calls triggered, final guard value, whether
st.rerun() aborted the pass).
-/

/-- The two auto-refresh branches of render_auth_status, run sequentially in
one evaluation pass. st.rerun() raises, ending the pass; a refresh failure
is caught and execution continues. The guard is recorded before the refresh
attempt in both branches. -/
def autoRefreshPass (current : Option String) (rem early : Int)
    (guard0 : Option String) (refreshOk : Bool) : Nat × Option String × Bool :=
  if PyPrim.truthyOptStr current ∧ 0 < rem ∧ rem ≤ early ∧ guard0 ≠ current then
    if refreshOk then (1, current, true)
    else
      -- the guard now equals current, so the expired branch cannot fire
      if PyPrim.truthyOptStr current ∧ rem = 0 ∧ current ≠ current then (2, current, true)
      else (1, current, false)
  else
    if PyPrim.truthyOptStr current ∧ rem = 0 ∧ guard0 ≠ current then
      if refreshOk then (1, current, true) else (1, current, false)
    else (0, guard0, false)

end AuthUIM

namespace LegalSvc

/-!
Model of LegalService.get_legal_tag in src/osdu_app/legal_service.py. The
HTTP layer is an oracle response with a status code and a JSON body (the
value resp.json() would return, abstracted as a string). The Bool in the
result records whether an HTTP request was issued.
-/

/-- The exceptions get_legal_tag can raise. -/
inductive LegalErr where
  | valueError : String → LegalErr
  | permissionError : String → LegalErr
  | httpError : Nat → LegalErr
deriving DecidableEq, Repr

/-- An HTTP response: status code plus decoded JSON body. -/
structure HttpResp where
  status : Nat
  body : String
deriving DecidableEq, Repr

/-- get_legal_tag: reject an empty or whitespace-only name before any HTTP
call; map 404 to ValueError, 403 to PermissionError, other 4xx/5xx to
requests raise_for_status, and return the body otherwise. -/
def get_legal_tag (name : String) (resp : HttpResp) : Bool × Except LegalErr String :=
  if name = "" ∨ PyPrim.pyStrip name = "" then
    (false, Except.error (LegalErr.valueError "legal_tag_name cannot be empty"))
  else
    (true,
      if resp.status = 404 then
        Except.error (LegalErr.valueError "Legal tag does not exist")
      else if resp.status = 403 then
        Except.error (LegalErr.permissionError "Not authorized to access this legal tag")
      else if 400 ≤ resp.status ∧ resp.status < 600 then
        Except.error (LegalErr.httpError resp.status)
      else
        Except.ok resp.body)

end LegalSvc

namespace PyObj

/-!
A small model of Python JSON-decoded values (the payload shapes the
entitlements module classifies) together with the pieces of the Python
object protocol the code uses: truthiness, dict.get, str().
-/

/-- JSON-decoded Python values. -/
inductive PyVal where
  | str : String → PyVal
  | int : Int → PyVal
  | bool : Bool → PyVal
  | list : List PyVal → PyVal
  | dict : List (String × PyVal) → PyVal
  | none : PyVal
deriving Repr

/-- The single-quote character, as Python repr uses around strings. -/
def sqc : String := String.mk [Char.ofNat 39]

mutual

/-- Model of Python repr() on JSON-decoded values (escaping of quotes inside
strings is not modelled; no input of interest contains them). -/
def pyRepr : PyVal → String
  | PyVal.str s => sqc ++ s ++ sqc
  | PyVal.int n => toString n
  | PyVal.bool true => "True"
  | PyVal.bool false => "False"
  | PyVal.none => "None"
  | PyVal.list l => "[" ++ reprJoin l ++ "]"
  | PyVal.dict d => "\x7b" ++ reprJoinD d ++ "\x7d"

/-- Comma-joined reprs of list elements. -/
def reprJoin : List PyVal → String
  | [] => ""
  | [v] => pyRepr v
  | v :: w :: vs => pyRepr v ++ ", " ++ reprJoin (w :: vs)

/-- Comma-joined regions of dict items. -/
def reprJoinD : List (String × PyVal) → String
  | [] => ""
  | [(k, v)] => sqc ++ k ++ sqc ++ ": " ++ pyRepr v
  | (k, v) :: e :: es => sqc ++ k ++ sqc ++ ": " ++ pyRepr v ++ ", " ++ reprJoinD (e :: es)

end

/-- Model of Python str(): identity on strings, repr-like elsewhere. -/
def pyStr : PyVal → String
  | PyVal.str s => s
  | v => pyRepr v

/-- Python truthiness of a JSON-decoded value. -/
def pyTruthy : PyVal → Bool
  | PyVal.str s => s ≠ ""
  | PyVal.int n => n ≠ 0
  | PyVal.bool b => b
  | PyVal.list l => !l.isEmpty
  | PyVal.dict d => !d.isEmpty
  | PyVal.none => false

/-- Model of dict.get(k) with default None. -/
def dictGet (d : List (String × PyVal)) (k : String) : PyVal :=
  match d.find? (fun kv => kv.1 = k) with
  | Option.some kv => kv.2
  | Option.none => PyVal.none

end PyObj

namespace EntitlementsM

open PyObj

/-!
Model of the classification logic of src/get_acl_streamlit.py:
OWNER_RE / VIEWER_RE, infer_role, pick_email and
parse_owner_viewer_from_payload.
-/

/-- The characters the regex allows before the role word:
the group (^|[.\-_]). -/
def isSepBefore (c : Char) : Bool :=
  c = '.' ∨ c = '-' ∨ c = '_'

/-- The characters the regex allows after the role word:
the group ([.\-_@]|$). -/
def isSepAfter (c : Char) : Bool :=
  c = '.' ∨ c = '-' ∨ c = '_' ∨ c = '@'

/-- Strip a literal word from the front of a character list. -/
def dropPrefixQ : List Char → List Char → Option (List Char)
  | [], l => Option.some l
  | _ :: _, [] => Option.none
  | a :: w, b :: l => if a = b then dropPrefixQ w l else Option.none

/-- The after-word boundary ([.\-_@]|$). -/
def boundaryAfter : List Char → Bool
  | [] => true
  | c :: _ => isSepAfter c

/-- Match word(s?)([.\-_@]|$) at the head of l. Taking the optional s is
decisive: when the next character is an s the boundary can only hold after
it (s itself is not a boundary character). -/
def matchCore (w : List Char) (l : List Char) : Bool :=
  match dropPrefixQ w l with
  | Option.none => false
  | Option.some rest =>
    match rest with
    | 's' :: rest2 => boundaryAfter rest2
    | _ => boundaryAfter rest

/-- re.search of (^|[.\-_])word s?([.\-_@]|$): scan every position, keeping
track of whether the before-boundary holds there. -/
def searchFrom (w : List Char) : Bool → List Char → Bool
  | atB, [] => atB && matchCore w []
  | atB, c :: cs => (atB && matchCore w (c :: cs)) || searchFrom w (isSepBefore c) cs

/-- re.search over the whole string (position 0 counts as ^). -/
def reSearch (w : List Char) (l : List Char) : Bool :=
  searchFrom w true l

/-- The word of OWNER_RE. -/
def ownerWord : List Char := ['o', 'w', 'n', 'e', 'r']

/-- The word of VIEWER_RE. -/
def viewerWord : List Char := ['v', 'i', 'e', 'w', 'e', 'r']

/-- ASCII lowering of a character list (model of str.lower()). -/
def lowerChars (l : List Char) : List Char :=
  l.map Char.toLower

/-- infer_role: a non-empty explicit role wins (uppercased); otherwise the
lowercased name is searched for the owner pattern, then the viewer
pattern. -/
def infer_role (name : String) (explicitRole : String) : String :=
  if explicitRole ≠ "" then PyPrim.pyUpper explicitRole
  else
    if reSearch ownerWord (lowerChars name.data) then "OWNER"
    else if reSearch viewerWord (lowerChars name.data) then "VIEWER"
    else ""

/-- pick_email: d.get("email") or d.get("groupEmail") or d.get("name") or
d.get("id") or "". -/
def pick_email (d : List (String × PyVal)) : PyVal :=
  let a := dictGet d "email"
  if pyTruthy a then a
  else
    let b := dictGet d "groupEmail"
    if pyTruthy b then b
    else
      let c := dictGet d "name"
      if pyTruthy c then c
      else
        let e := dictGet d "id"
        if pyTruthy e then e else PyVal.str ""

/-- str(entry.get("role") or "").strip(). -/
def explicitRoleOf (d : List (String × PyVal)) : String :=
  let r := dictGet d "role"
  PyPrim.pyStrip (pyStr (if pyTruthy r then r else PyVal.str ""))

/-- One iteration of the entry loop: it contributes (email, role_u) when the
entry is a dict whose picked email is a non-empty string, and is skipped
otherwise. -/
def entryRecord (entry : PyVal) : Option (String × String) :=
  match entry with
  | PyVal.dict d =>
    match pick_email d with
    | PyVal.str s =>
      if s = "" then Option.none
      else Option.some (s, infer_role s (explicitRoleOf d))
    | _ => Option.none
  | _ => Option.none

/-- Array selection: payload["groups"] and payload["items"] when they are
lists, and otherwise every list-valued item of the payload, in order. -/
def selectArrays (payload : List (String × PyVal)) : List (String × List PyVal) :=
  let g : List (String × List PyVal) :=
    match dictGet payload "groups" with
    | PyVal.list l => [("groups", l)]
    | _ => []
  let it : List (String × List PyVal) :=
    match dictGet payload "items" with
    | PyVal.list l => [("items", l)]
    | _ => []
  let arrays := g ++ it
  if arrays.isEmpty then
    payload.filterMap (fun kv =>
      match kv.2 with
      | PyVal.list l => Option.some (kv.1, l)
      | _ => Option.none)
  else arrays

/-- The (email, role_u) pairs appended by the loop, in iteration order. -/
def records (payload : List (String × PyVal)) : List (String × String) :=
  (selectArrays payload).flatMap (fun p => p.2.filterMap entryRecord)

/-- The rows diagnostics list built alongside: (source, group, detected
role, with "(none)" for an empty role). -/
def rows_for_diagnostics (payload : List (String × PyVal)) :
    List (String × String × String) :=
  (selectArrays payload).flatMap (fun p =>
    p.2.filterMap (fun entry =>
      match entryRecord entry with
      | Option.some (em, r) =>
        Option.some (p.1, em, if r = "" then "(none)" else r)
      | Option.none => Option.none))

/-- parse_owner_viewer_from_payload: the loop appends each accepted email to
all_groups and, according to role_u, to owners or viewers; the three lists
are then returned as sorted(set(...)), plus the diagnostics rows. -/
def parse_owner_viewer_from_payload (payload : List (String × PyVal)) :
    List String × List String × List String × List (String × String × String) :=
  let rs := records payload
  (PyPrim.pySortedSet ((rs.filter (fun p => p.2 = "OWNER")).map Prod.fst),
    PyPrim.pySortedSet ((rs.filter (fun p => p.2 = "VIEWER")).map Prod.fst),
    PyPrim.pySortedSet (rs.map Prod.fst),
    rows_for_diagnostics payload)

end EntitlementsM

namespace ValidatorsM

/-!
Model of validate_wellbore_csv in src/osdu_app/validators.py. pandas
read_csv is an oracle: either a parse error message or the pair (column
names, number of data rows). The function itself never raises.
-/

/-- Legacy schema columns (checked case-sensitively). -/
def REQUIRED_WELLBORE_COLUMNS_V1 : List String :=
  ["UWI", "Name", "Latitude", "Longitude", "TD", "SpudDate", "WellType"]

/-- Minimal borehole schema columns (checked after strip().lower()). -/
def REQUIRED_BOREHOLE_MIN : List String :=
  ["wellname", "uwi", "latitudewgs84", "longitudewgs84", "startdate"]

/-- Optional borehole columns, only reported in the OK message. -/
def OPTIONAL_BOREHOLE : List String :=
  ["enddate", "outcomeid", "wellstatus", "wellboreorientation", "boreholetvd",
    "referencelevel", "referencelevelheight", "operatorid", "drillingrigid",
    "drillingcompany"]

/-- The _lower helper: (c or "").strip().lower(). -/
def lowerName (c : String) : String :=
  PyPrim.pyLower (PyPrim.pyStrip c)

/-- Python repr of a list of strings, as the f-string interpolates it into
the failure message. -/
def reprStrList (l : List String) : String :=
  PyObj.pyRepr (PyObj.PyVal.list (l.map PyObj.PyVal.str))

/-- Comma-space join, as ", ".join produces in the OK message. -/
def joinComma : List String → String
  | [] => ""
  | [x] => x
  | x :: y :: ys => x ++ ", " ++ joinComma (y :: ys)

/-- validate_wellbore_csv over the read_csv outcome: a parse failure gives
(False, message, 0); the exact V1 header check runs case-sensitively, then
the borehole check on strip().lower()ed column names; the row count of a
parsed frame is always returned. -/
def validate_wellbore_csv (parsed : Except String (List String × Nat)) :
    Bool × String × Nat :=
  match parsed with
  | Except.error e => (false, "CSV read failed: " ++ e, 0)
  | Except.ok (cols, rowCount) =>
    if REQUIRED_WELLBORE_COLUMNS_V1.all (fun c => cols.contains c) then
      (true, "OK (legacy V1)", rowCount)
    else
      let colsLower := cols.map lowerName
      if REQUIRED_BOREHOLE_MIN.all (fun c => colsLower.contains c) then
        let missingOpt :=
          PyPrim.pySortedSet (OPTIONAL_BOREHOLE.filter (fun o => ¬ colsLower.contains o))
        let note :=
          if missingOpt ≠ [] then "; missing optional: " ++ joinComma missingOpt else ""
        (true, "OK (borehole schema)" ++ note, rowCount)
      else
        let missingV1 :=
          PyPrim.pySortedSet
            (REQUIRED_WELLBORE_COLUMNS_V1.filter (fun c => ¬ cols.contains c))
        let missingBh :=
          PyPrim.pySortedSet
            (REQUIRED_BOREHOLE_MIN.filter (fun c => ¬ colsLower.contains c))
        (false,
          "Unrecognized header set. Missing for V1: " ++ reprStrList missingV1 ++
            "; Missing for Borehole: " ++ reprStrList missingBh ++ ".", rowCount)

/-- The header-acceptance condition exactly as claim C8 words it: the header
set contains all seven V1 columns case-sensitively, or case-insensitively
contains the five minimal borehole columns (no whitespace stripping). -/
def claimHeaderOk (cols : List String) : Prop :=
  (∀ c ∈ REQUIRED_WELLBORE_COLUMNS_V1, c ∈ cols) ∨
    (∀ c ∈ REQUIRED_BOREHOLE_MIN, c ∈ cols.map PyPrim.pyLower)

instance (cols : List String) : Decidable (claimHeaderOk cols) := by
  unfold claimHeaderOk
  infer_instance

end ValidatorsM

namespace PyDT

/-!
String-level model of the datetime handling in src/osdu_app/token_store.py
and src/auth/token_manager.py (the two files define byte-identical
_parse_expiry and _format_expiry helpers).

A Python datetime is modelled by its calendar fields plus an optional UTC
offset in seconds (None = timezone-naive). datetime.fromisoformat is
modelled for the common extended ISO-8601 grammar it accepts:
YYYY-MM-DD, optionally followed by (T or space) and
HH[:MM[:SS[.ffffff or ,ffffff]]], optionally followed by a UTC offset
+HH:MM[:SS] or -HH:MM[:SS], or a single trailing Z designator (Python
3.11+). The no-separator basic formats, week dates and fractional offsets
that CPython additionally accepts are outside the modelled grammar.
Calendar arithmetic (astimezone) is done at second granularity with the
standard civil-from-days / days-from-civil conversions, as C Python's
timestamp arithmetic does.
-/

/-- A Python datetime value: calendar fields plus an optional UTC offset in
seconds (None = naive). -/
structure DT where
  year : Int
  month : Nat
  day : Nat
  hour : Nat
  minute : Nat
  second : Nat
  micro : Nat
  tz : Option Int
deriving DecidableEq, Repr

/-- Gregorian leap year. -/
def isLeap (y : Int) : Bool :=
  y % 4 = 0 ∧ (y % 100 ≠ 0 ∨ y % 400 = 0)

/-- Days in a month (0 for an invalid month number). -/
def daysInMonth (y : Int) (m : Nat) : Nat :=
  match m with
  | 1 => 31
  | 2 => if isLeap y then 29 else 28
  | 3 => 31
  | 4 => 30
  | 5 => 31
  | 6 => 30
  | 7 => 31
  | 8 => 31
  | 9 => 30
  | 10 => 31
  | 11 => 30
  | 12 => 31
  | _ => 0

/-- Python timezone offsets are strictly within one day. -/
def validOffset : Option Int → Bool
  | Option.none => true
  | Option.some o => -86400 < o ∧ o < 86400

/-- The invariant every constructed Python datetime object satisfies. -/
def validDT (d : DT) : Bool :=
  1 ≤ d.year ∧ d.year ≤ 9999 ∧ 1 ≤ d.month ∧ d.month ≤ 12 ∧
    1 ≤ d.day ∧ d.day ≤ daysInMonth d.year d.month ∧
    d.hour ≤ 23 ∧ d.minute ≤ 59 ∧ d.second ≤ 59 ∧ d.micro ≤ 999999 ∧
    validOffset d.tz

/-- Days since 1970-01-01 of a civil date (Hinnant's algorithm; Int division
here is floor division, which the era adjustment in the original emulates). -/
def daysFromCivil (y : Int) (m d : Nat) : Int :=
  let y1 : Int := if m ≤ 2 then y - 1 else y
  let era : Int := y1 / 400
  let yoe : Int := y1 - era * 400
  let mp : Int := if 2 < m then (m : Int) - 3 else (m : Int) + 9
  let doy : Int := (153 * mp + 2) / 5 + (d : Int) - 1
  let doe : Int := yoe * 365 + yoe / 4 - yoe / 100 + doy
  era * 146097 + doe - 719468

/-- Civil date of a number of days since 1970-01-01 (Hinnant's algorithm). -/
def civilFromDays (z0 : Int) : Int × Nat × Nat :=
  let z := z0 + 719468
  let era : Int := z / 146097
  let doe : Int := z - era * 146097
  let yoe : Int := (doe - doe / 1460 + doe / 36524 - doe / 146096) / 365
  let y : Int := yoe + era * 400
  let doy : Int := doe - (365 * yoe + yoe / 4 - yoe / 100)
  let mp : Int := (5 * doy + 2) / 153
  let d : Int := doy - (153 * mp + 2) / 5 + 1
  let m : Int := if mp < 10 then mp + 3 else mp - 9
  (if m ≤ 2 then y + 1 else y, m.toNat, d.toNat)

/-- UTC instant (seconds since epoch) of an aware datetime: wall-clock
seconds minus the UTC offset. Only meaningful when tz is present (naive
datetimes have no instant; the code paths that would need one raise). -/
def toInstant (dt : DT) : Int :=
  daysFromCivil dt.year dt.month dt.day * 86400 +
    (dt.hour : Int) * 3600 + (dt.minute : Int) * 60 + (dt.second : Int) -
    dt.tz.getD 0

/-- astimezone(timezone.utc) on an aware datetime: re-express the instant in
UTC civil fields, keeping microseconds. -/
def astimezoneUTC (dt : DT) : DT :=
  let total := toInstant dt
  let days := total / 86400
  let rem : Int := total % 86400
  let c := civilFromDays days
  { year := c.1, month := c.2.1, day := c.2.2,
    hour := (rem / 3600).toNat, minute := (rem % 3600 / 60).toNat,
    second := (rem % 60).toNat, micro := dt.micro, tz := Option.some 0 }

/-- replace(microsecond=0). -/
def dropMicro (dt : DT) : DT :=
  { dt with micro := 0 }

/-- Digit value of a character. -/
def dval (c : Char) : Nat :=
  c.toNat - 48

/-- Two-digit zero-padded rendering. -/
def pad2 (n : Nat) : List Char :=
  [Nat.digitChar (n / 10), Nat.digitChar (n % 10)]

/-- Four-digit zero-padded rendering. -/
def pad4 (n : Nat) : List Char :=
  [Nat.digitChar (n / 1000), Nat.digitChar (n / 100 % 10),
    Nat.digitChar (n / 10 % 10), Nat.digitChar (n % 10)]

/-- Six-digit zero-padded rendering (microseconds). -/
def pad6 (n : Nat) : List Char :=
  [Nat.digitChar (n / 100000), Nat.digitChar (n / 10000 % 10),
    Nat.digitChar (n / 1000 % 10), Nat.digitChar (n / 100 % 10),
    Nat.digitChar (n / 10 % 10), Nat.digitChar (n % 10)]

/-- isoformat rendering of a UTC offset in seconds: sign, HH:MM, and a :SS
part only when the offset has a seconds component. -/
def offsetChars (o : Int) : List Char :=
  let a := o.natAbs
  (if o < 0 then '-' else '+') ::
    pad2 (a / 3600) ++ ':' :: pad2 (a % 3600 / 60) ++
      (if a % 60 = 0 then [] else ':' :: pad2 (a % 60))

/-- datetime.isoformat(): date, T, time, fractional part when microseconds
are non-zero, offset when aware. -/
def isoChars (dt : DT) : List Char :=
  pad4 dt.year.toNat ++ '-' :: pad2 dt.month ++ '-' :: pad2 dt.day ++
    'T' :: pad2 dt.hour ++ ':' :: pad2 dt.minute ++ ':' :: pad2 dt.second ++
    (if dt.micro = 0 then [] else '.' :: pad6 dt.micro) ++
    (match dt.tz with
     | Option.none => []
     | Option.some o => offsetChars o)

/-- str.replace("+00:00", "Z"): leftmost, non-overlapping (the first arm
takes precedence over the catch-all). -/
def replacePlus : List Char → List Char
  | '+' :: '0' :: '0' :: ':' :: '0' :: '0' :: rest => 'Z' :: replacePlus rest
  | c :: rest => c :: replacePlus rest
  | [] => []

/-- _format_expiry: dt.astimezone(utc).replace(microsecond=0).isoformat()
.replace("+00:00", "Z"). None models the exceptional paths: a naive input
(astimezone would use the process-local timezone, outside the modelled
scope — the claims only quantify over aware datetimes) and an OverflowError
when the UTC conversion leaves the supported year range. -/
def format_expiry (dt : DT) : Option String :=
  match dt.tz with
  | Option.none => Option.none
  | Option.some _ =>
    let u := astimezoneUTC dt
    if 1 ≤ u.year ∧ u.year ≤ 9999 then
      Option.some (String.mk (replacePlus (isoChars (dropMicro u))))
    else
      Option.none

/-- Read two digit characters. -/
def read2 : List Char → Option (Nat × List Char)
  | a :: b :: rest =>
    if a.isDigit ∧ b.isDigit then Option.some (dval a * 10 + dval b, rest)
    else Option.none
  | _ => Option.none

/-- Read four digit characters. -/
def read4 : List Char → Option (Nat × List Char)
  | a :: b :: c :: d :: rest =>
    if a.isDigit ∧ b.isDigit ∧ c.isDigit ∧ d.isDigit then
      Option.some (dval a * 1000 + dval b * 100 + dval c * 10 + dval d, rest)
    else Option.none
  | _ => Option.none

/-- Require a literal character. -/
def expectChar (c : Char) : List Char → Option (List Char)
  | x :: rest => if x = c then Option.some rest else Option.none
  | [] => Option.none

/-- Microsecond value of 1-6 fractional digits. -/
def fracVal (l : List Char) : Nat :=
  l.foldl (fun a c => a * 10 + dval c) 0 * 10 ^ (6 - l.length)

/-- Split a character list at the first + or - sign. -/
def splitAtSign : List Char → List Char × List Char
  | [] => ([], [])
  | c :: cs =>
    if c = '+' ∨ c = '-' then ([], c :: cs)
    else
      let p := splitAtSign cs
      (c :: p.1, p.2)

/-- Parse HH[:MM[:SS[.ffffff]]] (a , fraction separator is also accepted,
as CPython does). -/
def parseTime (l : List Char) : Option (Nat × Nat × Nat × Nat) :=
  match read2 l with
  | Option.none => Option.none
  | Option.some (hh, r1) =>
    if hh ≤ 23 then
      match r1 with
      | [] => Option.some (hh, 0, 0, 0)
      | ':' :: r2 =>
        match read2 r2 with
        | Option.none => Option.none
        | Option.some (mm, r3) =>
          if mm ≤ 59 then
            match r3 with
            | [] => Option.some (hh, mm, 0, 0)
            | ':' :: r4 =>
              match read2 r4 with
              | Option.none => Option.none
              | Option.some (ss, r5) =>
                if ss ≤ 59 then
                  match r5 with
                  | [] => Option.some (hh, mm, ss, 0)
                  | sep :: frac =>
                    if (sep = '.' ∨ sep = ',') ∧ frac ≠ [] ∧ frac.length ≤ 6 ∧
                        frac.all Char.isDigit then
                      Option.some (hh, mm, ss, fracVal frac)
                    else Option.none
                else Option.none
            | _ => Option.none
          else Option.none
      | _ => Option.none
    else Option.none

/-- Parse an absent offset, or sign HH:MM with an optional :SS. -/
def parseOffset (l : List Char) : Option (Option Int) :=
  match l with
  | [] => Option.some Option.none
  | sg :: r0 =>
    if sg = '+' ∨ sg = '-' then
      match read2 r0 with
      | Option.none => Option.none
      | Option.some (hh, r1) =>
        match expectChar ':' r1 with
        | Option.none => Option.none
        | Option.some r2 =>
          match read2 r2 with
          | Option.none => Option.none
          | Option.some (mm, r3) =>
            if hh ≤ 23 ∧ mm ≤ 59 then
              match r3 with
              | [] =>
                Option.some (Option.some
                  ((if sg = '-' then (-1 : Int) else 1) *
                    ((hh : Int) * 3600 + (mm : Int) * 60)))
              | ':' :: r4 =>
                match read2 r4 with
                | Option.none => Option.none
                | Option.some (ss, r5) =>
                  if ss ≤ 59 ∧ r5 = [] then
                    Option.some (Option.some
                      ((if sg = '-' then (-1 : Int) else 1) *
                        ((hh : Int) * 3600 + (mm : Int) * 60 + (ss : Int))))
                  else Option.none
              | _ => Option.none
            else Option.none
    else Option.none

/-- Parse the time-and-offset tail: the time part runs until the first sign,
the rest is the offset. -/
def parseTimeTz (l : List Char) : Option (Nat × Nat × Nat × Nat × Option Int) :=
  let p := splitAtSign l
  match parseTime p.1, parseOffset p.2 with
  | Option.some t, Option.some tz =>
    Option.some (t.1, t.2.1, t.2.2.1, t.2.2.2, tz)
  | _, _ => Option.none

/-- Parse YYYY-MM-DD, optionally followed by a (T or space) separator and
the time-and-offset tail, validating all field ranges as CPython does. -/
def parseNoZ (l : List Char) : Option DT :=
  match read4 l with
  | Option.none => Option.none
  | Option.some (y, r1) =>
    match expectChar '-' r1 with
    | Option.none => Option.none
    | Option.some r2 =>
      match read2 r2 with
      | Option.none => Option.none
      | Option.some (mo, r3) =>
        match expectChar '-' r3 with
        | Option.none => Option.none
        | Option.some r4 =>
          match read2 r4 with
          | Option.none => Option.none
          | Option.some (da, r5) =>
            if 1 ≤ y ∧ 1 ≤ mo ∧ mo ≤ 12 ∧ 1 ≤ da ∧ da ≤ daysInMonth (y : Int) mo then
              match r5 with
              | [] => Option.some ⟨(y : Int), mo, da, 0, 0, 0, 0, Option.none⟩
              | sep :: tr =>
                if sep = 'T' ∨ sep = ' ' then
                  match parseTimeTz tr with
                  | Option.some (hh, mm, ss, mc, tz) =>
                    Option.some ⟨(y : Int), mo, da, hh, mm, ss, mc, tz⟩
                  | Option.none => Option.none
                else Option.none
            else Option.none

/-- The six characters "+00:00". -/
def utc6 : List Char := ['+', '0', '0', ':', '0', '0']

/-- datetime.fromisoformat over the modelled grammar: a single trailing Z is
the UTC designator (Python 3.11+); a Z anywhere else is invalid. -/
def fromiso (l : List Char) : Option DT :=
  if l.count 'Z' = 0 then parseNoZ l
  else if l.count 'Z' = 1 ∧ l.getLast? = Option.some 'Z' then
    parseNoZ (l.dropLast ++ utc6)
  else Option.none

/-- str.replace("Z", "+00:00") (every occurrence). -/
def replaceZchars (l : List Char) : List Char :=
  l.flatMap (fun c => if c = 'Z' then utc6 else [c])

/-- _parse_expiry, as token_store.py and token_manager.py both define it:
None for the empty string; a trailing Z is first rewritten by
replace("Z", "+00:00"); fromisoformat errors become None. -/
def parse_expiry (s : String) : Option DT :=
  if s = "" then Option.none
  else if s.data.getLast? = Option.some 'Z' then fromiso (replaceZchars s.data)
  else fromiso s.data

end PyDT

namespace TokenStoreS

/-!
String-level model of src/osdu_app/token_store.py: load_token_from_env over
the raw OSDU_JWT / OSDU_JWT_EXPIRES_AT strings of the .env mirror.
Except.error () models the uncaught TypeError Python raises when comparing
a timezone-naive parsed expiry against the aware _utcnow().
-/

/-- load_token_from_env: the pair is restored only when the token string is
non-empty, the expiry parses, and the parsed (aware) expiry is strictly
later than now; a naive parsed expiry makes the > comparison raise. -/
def load_token_from_env (envJwt envExp : String) (now : Int) :
    Except Unit (Option (String × PyDT.DT)) :=
  match (if envJwt = "" then Option.none else Option.some envJwt),
      PyDT.parse_expiry envExp with
  | Option.some t, Option.some e =>
    match e.tz with
    | Option.some _ =>
      if now < PyDT.toInstant e then Except.ok (Option.some (t, e))
      else Except.ok Option.none
    | Option.none => Except.error ()
  | _, _ => Except.ok Option.none

end TokenStoreS

namespace TokenManagerS

/-!
String-level model of init_token_state in src/auth/token_manager.py, which
repeats the load_token_from_env logic inline with its own (byte-identical)
_parse_expiry.
-/

/-- Session state of token_manager.py at string-model granularity. -/
structure TMSState where
  osdu_jwt : Option String
  osdu_jwt_expires_at : Option PyDT.DT
  env_loaded : Bool
deriving DecidableEq, Repr

/-- init_token_state: a no-op once env_loaded; otherwise mark the session
loaded and adopt the persisted pair exactly when the token string is
non-empty and the parsed expiry is aware and strictly in the future
(a naive parsed expiry raises). -/
def init_token_state (s : TMSState) (envJwt envExp : String) (now : Int) :
    Except Unit TMSState :=
  if s.env_loaded then Except.ok s
  else
    let s1 : TMSState := { s with env_loaded := true }
    match (if envJwt = "" then Option.none else Option.some envJwt),
        PyDT.parse_expiry envExp with
    | Option.some t, Option.some e =>
      match e.tz with
      | Option.some _ =>
        if now < PyDT.toInstant e then
          Except.ok { s1 with
            osdu_jwt := Option.some t
            osdu_jwt_expires_at := Option.some e }
        else Except.ok s1
      | Option.none => Except.error ()
    | _, _ => Except.ok s1

end TokenManagerS

/-!
Concrete instances used by the claim witnesses and counterexamples.
-/

/-- A concrete status oracle: running twice, then finished. -/
def pollWitnessOracle (n : Nat) : Option String :=
  if n < 2 then Option.some "running" else Option.some "finished"

/-- A concrete auth.py session: token A stored with a far-future expiry,
env already loaded, st.cache_data empty. -/
def c1CexState : AuthI.AuthState :=
  { osdu_token := Option.some "A"
    osdu_expires_at := Option.some 10000
    osdu_loaded_env := true
    cache := Option.none
    envTok := "A"
    envExp := Option.some 10000 }

/-- A concrete token_manager.py session used to instantiate claim C1. -/
def c1WitnessState : TokenManagerI.TMState :=
  { osdu_jwt := Option.some "J"
    osdu_jwt_expires_at := Option.some 1000
    env_loaded := true
    envJwt := "J"
    envExp := Option.some 1000 }

/-- A concrete auth.py session with a valid st.cache_data entry holding the
same token A that session state stores. -/
def c9WitnessState : AuthI.AuthState :=
  { osdu_token := Option.some "A"
    osdu_expires_at := Option.some 100
    osdu_loaded_env := true
    cache := Option.some ({ access_token := "A", expires_in := Option.some 3600 }, 0)
    envTok := "A"
    envExp := Option.some 100 }

/-- A concrete entitlements payload with one owner group and one viewer
group under the "groups" key. -/
def c7Payload : List (String × PyObj.PyVal) :=
  [("groups", PyObj.PyVal.list
    [PyObj.PyVal.dict [("email", PyObj.PyVal.str "data.default.owners@x")],
      PyObj.PyVal.dict [("email", PyObj.PyVal.str "data.default.viewers@x")]])]

/-- Claim C8 counterexample header set: the first column carries surrounding
whitespace, so lowercasing alone does not produce "wellname", yet the code
accepts it because _lower also strips. -/
def c8CexCols : List String :=
  [" WELLNAME ", "uwi", "latitudewgs84", "longitudewgs84", "startdate"]

/-- The timezone-aware datetime 0001-01-01T00:00:00+01:00 (datetime.min with
a +01:00 offset). -/
def c4CexDT : PyDT.DT :=
  { year := 1
    month := 1
    day := 1
    hour := 0
    minute := 0
    second := 0
    micro := 0
    tz := Option.some 3600 }

/-- The concrete aware datetime 2026-01-26T14:22:10.123456+05:30. -/
def c4WitnessDT : PyDT.DT :=
  { year := 2026, month := 1, day := 26, hour := 14, minute := 22, second := 10,
    micro := 123456, tz := Option.some 19800 }

/-- The aware datetime 2030-01-01T00:00:00+00:00. -/
def c3WitnessDT : PyDT.DT :=
  { year := 2030
    month := 1
    day := 1
    hour := 0
    minute := 0
    second := 0
    micro := 0
    tz := Option.some 0 }

/-- A session already marked env_loaded with no token. -/
def c3WitnessState : TokenManagerS.TMSState :=
  { osdu_jwt := Option.none
    osdu_jwt_expires_at := Option.none
    env_loaded := true }

section ClaimTheorems

open StreamlitApp in
/-- Helper: each loop iteration issues at most one request. -/
theorem pollAux_reqCount_le (f : Nat → Option String) :
    ∀ fuel i, reqCount (pollAux f i fuel) ≤ fuel := by
  intro fuel
  induction fuel with
  | zero => intro i; simp [pollAux, reqCount]
  | succ n ih =>
    intro i
    by_cases h : isTerminal (f i) = true
    · simp [pollAux, h, reqCount]
    · simp only [pollAux, h, if_false, Bool.false_eq_true, reqCount]
      have := ih (i + 1)
      omega

open StreamlitApp in
/-- Helper: any event following a request in the trace is a 5-second sleep. -/
theorem pollAux_sleep_between (f : Nat → Option String) :
    ∀ fuel i n j, (pollAux f i fuel).get? n = Option.some (PollEvent.req j) →
      (pollAux f i fuel).get? (n + 1) = Option.none ∨
      (pollAux f i fuel).get? (n + 1) = Option.some (PollEvent.sleep 5) := by
  intro fuel
  induction fuel with
  | zero => intro i n j h; simp [pollAux] at h
  | succ m ih =>
    intro i n j h
    by_cases ht : isTerminal (f i) = true
    · simp only [pollAux, ht, if_true] at h ⊢
      match n with
      | 0 => left; rfl
      | Nat.succ k => simp at h
    · simp only [pollAux, ht, if_false, Bool.false_eq_true] at h ⊢
      match n with
      | 0 => right; rfl
      | 1 => simp at h
      | Nat.succ (Nat.succ k) =>
        simp only [List.get?_cons_succ] at h ⊢
        exact ih (i + 1) k j h

open StreamlitApp in
/-- Helper: when the first terminal status is at offset k < fuel, the loop
issues exactly k+1 requests and no request with index beyond i+k. -/
theorem pollAux_early_stop (f : Nat → Option String) :
    ∀ fuel i k, k < fuel → isTerminal (f (i + k)) = true →
      (∀ j, j < k → isTerminal (f (i + j)) = false) →
      reqCount (pollAux f i fuel) = k + 1 ∧
        ∀ m, PollEvent.req m ∈ pollAux f i fuel → m ≤ i + k := by
  intro fuel
  induction fuel with
  | zero => intro i k hk; omega
  | succ n ih =>
    intro i k hk hterm hbefore
    match k with
    | 0 =>
      simp only [Nat.add_zero] at hterm
      constructor
      · simp [pollAux, hterm, reqCount]
      · intro m hm
        simp [pollAux, hterm] at hm
        omega
    | Nat.succ k' =>
      have h0 : isTerminal (f i) = false := by
        have := hbefore 0 (Nat.succ_pos k')
        simpa using this
      have hterm' : isTerminal (f (i + 1 + k')) = true := by
        have : i + 1 + k' = i + (k' + 1) := by omega
        rw [this]; exact hterm
      have hbefore' : ∀ j, j < k' → isTerminal (f (i + 1 + j)) = false := by
        intro j hj
        have : i + 1 + j = i + (j + 1) := by omega
        rw [this]; exact hbefore (j + 1) (by omega)
      have hk' : k' < n := by omega
      obtain ⟨hc, hm⟩ := ih (i + 1) k' hk' hterm' hbefore'
      constructor
      · simp only [pollAux, h0, if_false, Bool.false_eq_true, reqCount]
        omega
      · intro m hmem
        simp only [pollAux, h0, if_false, Bool.false_eq_true, List.mem_cons] at hmem
        rcases hmem with h | h | h
        · cases h; omega
        · cases h
        · have := hm m h; omega

/-- Claim C5: for every status oracle, the ingestion flow's workflow polling
loop performs at most 60 status requests and any event following a request
is a 5-second sleep (so consecutive requests are separated by a 5-second
sleep) — both unconditionally, terminal status or not; and when the first
terminal status ("finished", "completed", "success", "failed" or "error")
arrives at request k < 60 the loop stops after exactly k+1 requests, never
requesting beyond index k. -/
theorem claim_C5 (f : Nat → Option String) (k : Nat) :
    StreamlitApp.reqCount (StreamlitApp.pollTrace f) ≤ 60 ∧
    (∀ n j, (StreamlitApp.pollTrace f).get? n =
        Option.some (StreamlitApp.PollEvent.req j) →
      (StreamlitApp.pollTrace f).get? (n + 1) = Option.none ∨
      (StreamlitApp.pollTrace f).get? (n + 1) =
        Option.some (StreamlitApp.PollEvent.sleep 5)) ∧
    (k < 60 → StreamlitApp.isTerminal (f k) = true →
      (∀ j, j < k → StreamlitApp.isTerminal (f j) = false) →
      StreamlitApp.reqCount (StreamlitApp.pollTrace f) = k + 1 ∧
        ∀ m, StreamlitApp.PollEvent.req m ∈ StreamlitApp.pollTrace f → m ≤ k) := by
  refine ⟨pollAux_reqCount_le f 60 0, fun n j h => pollAux_sleep_between f 60 0 n j h, ?_⟩
  intro hk hterm hbefore
  have h3 := pollAux_early_stop f 60 0 k hk (by simpa using hterm)
    (by intro j hj; simpa using hbefore j hj)
  refine ⟨h3.1, ?_⟩
  intro m hm
  have := h3.2 m hm
  omega

/-- Witness for claim C5 at a concrete oracle: the cap of 60 requests holds,
and since the status becomes terminal on the third request the loop stops
there, having made exactly 3 requests. -/
theorem claim_C5_witness :
    StreamlitApp.reqCount (StreamlitApp.pollTrace pollWitnessOracle) ≤ 60 ∧
    StreamlitApp.reqCount (StreamlitApp.pollTrace pollWitnessOracle) = 3 :=
  ⟨(claim_C5 pollWitnessOracle 2).1,
    ((claim_C5 pollWitnessOracle 2).2.2 (by decide) (by decide)
      (by intro j hj; interval_cases j <;> decide)).1⟩

/-- Claim C10: seconds_remaining (both the token_manager.py and the
osdu_app/auth.py versions) returns 0 when no expiry is stored, returns the
seconds until the stored expiry clamped below at 0 otherwise, and is never
negative. -/
theorem claim_C10 (exp : Option Int) (e now : Int) (s : TokenManagerI.TMState) :
    0 ≤ AuthI.seconds_remaining exp now ∧
    AuthI.seconds_remaining Option.none now = 0 ∧
    AuthI.seconds_remaining (Option.some e) now = max 0 (e - now) ∧
    0 ≤ TokenManagerI.seconds_remaining s now ∧
    TokenManagerI.seconds_remaining { s with osdu_jwt_expires_at := Option.none } now = 0 ∧
    TokenManagerI.seconds_remaining { s with osdu_jwt_expires_at := Option.some e } now
      = max 0 (e - now) := by
  refine ⟨?_, rfl, rfl, ?_, rfl, rfl⟩
  · cases exp with
    | none => simp [AuthI.seconds_remaining]
    | some v => simp [AuthI.seconds_remaining]
  · cases h : s.osdu_jwt_expires_at with
    | none => simp [TokenManagerI.seconds_remaining, h]
    | some v => simp [TokenManagerI.seconds_remaining, h]

/-- Claim C2: in a single evaluation pass of render_auth_status with a fixed
current token value, the two auto-refresh branches trigger at most one
refresh, and they trigger none at all once _auto_refreshed_for_token already
records the current token value. -/
theorem claim_C2 (current : Option String) (rem early : Int)
    (guard0 : Option String) (refreshOk : Bool) :
    (AuthUIM.autoRefreshPass current rem early guard0 refreshOk).1 ≤ 1 ∧
    (AuthUIM.autoRefreshPass current rem early current refreshOk).1 = 0 := by
  constructor
  · unfold AuthUIM.autoRefreshPass
    split
    · split
      · exact le_refl 1
      · split
        · omega
        · exact le_refl 1
    · split
      · split
        · exact le_refl 1
        · exact le_refl 1
      · omega
  · unfold AuthUIM.autoRefreshPass
    have h1 : ¬(PyPrim.truthyOptStr current ∧ 0 < rem ∧ rem ≤ early ∧ current ≠ current) := by
      rintro ⟨-, -, -, h⟩; exact h rfl
    have h2 : ¬(PyPrim.truthyOptStr current ∧ rem = 0 ∧ current ≠ current) := by
      rintro ⟨-, -, h⟩; exact h rfl
    rw [if_neg h1, if_neg h2]

/-- Claim C6: LegalService.get_legal_tag raises ValueError without issuing
any HTTP request on an empty or whitespace-only name; otherwise it issues
the request and maps 404 to ValueError "Legal tag does not exist", 403 to
PermissionError, any other 4xx/5xx status to the raise_for_status error,
and returns the response JSON on a successful (status < 400) response. -/
theorem claim_C6 (name : String) (resp : LegalSvc.HttpResp) :
    (PyPrim.pyStrip name = "" →
      LegalSvc.get_legal_tag name resp =
        (false, Except.error (LegalSvc.LegalErr.valueError "legal_tag_name cannot be empty"))) ∧
    (PyPrim.pyStrip name ≠ "" →
      (LegalSvc.get_legal_tag name resp).1 = true ∧
      (resp.status = 404 →
        (LegalSvc.get_legal_tag name resp).2 =
          Except.error (LegalSvc.LegalErr.valueError "Legal tag does not exist")) ∧
      (resp.status = 403 →
        (LegalSvc.get_legal_tag name resp).2 =
          Except.error (LegalSvc.LegalErr.permissionError
            "Not authorized to access this legal tag")) ∧
      (resp.status ≠ 404 → resp.status ≠ 403 → 400 ≤ resp.status → resp.status < 600 →
        (LegalSvc.get_legal_tag name resp).2 =
          Except.error (LegalSvc.LegalErr.httpError resp.status)) ∧
      (resp.status < 400 →
        (LegalSvc.get_legal_tag name resp).2 = Except.ok resp.body)) := by
  have hempty : name = "" → PyPrim.pyStrip name = "" := by
    intro h; subst h; rfl
  constructor
  · intro h
    unfold LegalSvc.get_legal_tag
    rw [if_pos (Or.inr h)]
  · intro h
    have hname : ¬(name = "" ∨ PyPrim.pyStrip name = "") := by
      rintro (h1 | h1)
      · exact h (hempty h1)
      · exact h h1
    unfold LegalSvc.get_legal_tag
    rw [if_neg hname]
    refine ⟨rfl, ?_, ?_, ?_, ?_⟩
    · intro h404; simp [h404]
    · intro h403
      have : resp.status ≠ 404 := by omega
      simp [h403, this]
    · intro h1 h2 h3 h4
      simp [h1, h2, h3, h4]
    · intro hlt
      have h1 : resp.status ≠ 404 := by omega
      have h2 : resp.status ≠ 403 := by omega
      have h3 : ¬(400 ≤ resp.status ∧ resp.status < 600) := by omega
      simp [h1, h2, h3]

/-- Witness for claim C6: a whitespace-only name short-circuits with no
request, and a non-blank name with a 200 response returns the body. -/
theorem claim_C6_witness :
    LegalSvc.get_legal_tag "  " { status := 200, body := "tag" } =
      (false, Except.error (LegalSvc.LegalErr.valueError "legal_tag_name cannot be empty")) ∧
    (LegalSvc.get_legal_tag "opendes-tag" { status := 200, body := "tag" }).2 =
      Except.ok "tag" :=
  ⟨(claim_C6 "  " { status := 200, body := "tag" }).1 (by decide),
    ((claim_C6 "opendes-tag" { status := 200, body := "tag" }).2 (by decide)).2.2.2.2
      (by decide)⟩

open TokenManagerI in
/-- Helper: init_token_state is the identity once the session is marked
env_loaded. -/
theorem init_token_state_loaded (s : TMState) (now : Int) (hl : s.env_loaded = true) :
    init_token_state s now = s := by
  simp [init_token_state, hl]

open AuthI in
/-- Helper: _load_env_once is the identity once the session is marked
osdu_loaded_env. -/
theorem load_env_once_loaded (s : AuthState) (now : Int) (hl : s.osdu_loaded_env = true) :
    load_env_once s now = s := by
  simp [load_env_once, hl]

open AuthI in
/-- Helper: the st.cache_data read never touches the session token and
expiry fields. -/
theorem fetch_cached_frame (s : AuthState) (now : Int) (oracle : TokenPayload) :
    ((fetch_access_token_cached s now oracle).2.1).osdu_token = s.osdu_token ∧
    ((fetch_access_token_cached s now oracle).2.1).osdu_expires_at = s.osdu_expires_at := by
  unfold fetch_access_token_cached
  rcases h : s.cache with - | ⟨p, t0⟩
  · exact ⟨rfl, rfl⟩
  · by_cases hlt : now - t0 < 3300 <;> simp [hlt]

open TokenManagerI in
/-- Helper: the cached branch of ensure_valid_jwt — a truthy token whose
expiry strictly exceeds now + early is returned unchanged with no fetch. -/
theorem ensure_valid_jwt_cached (s : TMState) (now early : Int) (resp : FetchResp)
    (j : String) (e : Int)
    (hl : s.env_loaded = true) (hj : s.osdu_jwt = Option.some j) (hne : j ≠ "")
    (he : s.osdu_jwt_expires_at = Option.some e)
    (hearly : 0 ≤ early) (hfresh : now + early < e) :
    ensure_valid_jwt s now early resp = Except.ok (Option.some j, s, 0) := by
  unfold ensure_valid_jwt
  rw [init_token_state_loaded s now hl]
  have h1 : ¬(s.osdu_jwt = Option.none ∨ s.osdu_jwt = Option.some "" ∨
      s.osdu_jwt_expires_at = Option.none) := by
    rw [hj, he]
    rintro (h | h | h)
    · exact Option.noConfusion h
    · exact hne (Option.some.injEq j "" ▸ h)
    · exact Option.noConfusion h
  rw [if_neg h1]
  have h2 : ¬(seconds_remaining s now ≤ early) := by
    simp only [seconds_remaining, he]
    omega
  rw [if_neg h2, hj]

open TokenManagerI in
/-- Helper: the refresh branch of ensure_valid_jwt — a missing, empty,
expiry-less or near-expiry token triggers exactly one fetch, which stores
the new token with expiry now + expires_in in session state and persists
both to the .env mirror. -/
theorem ensure_valid_jwt_refresh (s : TMState) (now early : Int) (resp : FetchResp)
    (tok : String)
    (hl : s.env_loaded = true) (hresp : resp.access_token = Option.some tok)
    (hearly : 0 ≤ early)
    (hcond : s.osdu_jwt = Option.none ∨ s.osdu_jwt = Option.some "" ∨
      s.osdu_jwt_expires_at = Option.none ∨
      (∃ e, s.osdu_jwt_expires_at = Option.some e ∧ e - now ≤ early)) :
    ensure_valid_jwt s now early resp =
      Except.ok (Option.some tok,
        { s with
          osdu_jwt := Option.some tok
          osdu_jwt_expires_at := Option.some (now + resp.expires_in.getD 3600)
          envJwt := tok
          envExp := Option.some (now + resp.expires_in.getD 3600) }, 1) := by
  unfold ensure_valid_jwt
  rw [init_token_state_loaded s now hl]
  by_cases h1 : s.osdu_jwt = Option.none ∨ s.osdu_jwt = Option.some "" ∨
      s.osdu_jwt_expires_at = Option.none
  · rw [if_pos h1]
    simp [fetch_new_jwt, hresp]
  · rw [if_neg h1]
    have h2 : seconds_remaining s now ≤ early := by
      rcases hcond with h | h | h | ⟨e, he, hle⟩
      · exact absurd (Or.inl h) h1
      · exact absurd (Or.inr (Or.inl h)) h1
      · exact absurd (Or.inr (Or.inr h)) h1
      · simp only [seconds_remaining, he]
        omega
    rw [if_pos h2]
    simp [fetch_new_jwt, hresp]

open AuthI in
/-- Helper: get_access_token issues no fetch exactly when the
st.cache_data entry is younger than 3300 seconds. -/
theorem get_access_token_fetches (s : AuthState) (now : Int) (oracle : TokenPayload) :
    (∀ p t0, s.cache = Option.some (p, t0) → now - t0 < 3300 →
      (get_access_token s now oracle).2.2 = 0) ∧
    (s.cache = Option.none → (get_access_token s now oracle).2.2 = 1) ∧
    (∀ p t0, s.cache = Option.some (p, t0) → 3300 ≤ now - t0 →
      (get_access_token s now oracle).2.2 = 1) := by
  have hcachePreserve : (load_env_once s now).cache = s.cache := by
    unfold load_env_once
    by_cases hl : s.osdu_loaded_env = true
    · rw [if_pos hl]
    · rw [if_neg hl]
      rcases (if s.envTok = "" then Option.none else Option.some s.envTok) with - | t
      · rfl
      · rcases s.envExp with - | e
        · rfl
        · by_cases hlt : now < e <;> simp [hlt]
  refine ⟨?_, ?_, ?_⟩
  · intro p t0 hc hlt
    unfold get_access_token
    simp only [fetch_access_token_cached, hcachePreserve, hc, if_pos hlt]
    split <;> rfl
  · intro hc
    unfold get_access_token
    simp only [fetch_access_token_cached, hcachePreserve, hc]
    split <;> rfl
  · intro p t0 hc hge
    have hlt : ¬(now - t0 < 3300) := by omega
    unfold get_access_token
    simp only [fetch_access_token_cached, hcachePreserve, hc, if_neg hlt]
    split <;> rfl

/-- Claim C1 (amended): ensure_valid_jwt with auto_refresh=True returns the
cached credential unchanged with no fetch whenever the cached expiry
strictly exceeds now plus the early-refresh margin, and otherwise performs
exactly one synchronous fetch, storing the token with expiry now +
expires_in in session state and persisting both to the .env mirror;
get_access_token, by contrast, gates its fetch on the 3300-second TTL of
the st.cache_data entry, fetching exactly when that entry is absent or
older than 3300 seconds, independently of the stored expiry. -/
theorem claim_C1 (s : TokenManagerI.TMState) (a : AuthI.AuthState)
    (now early : Int) (resp : TokenManagerI.FetchResp) (oracle : AuthI.TokenPayload)
    (tok j : String) (e : Int)
    (hl : s.env_loaded = true) (hearly : 0 ≤ early) :
    (s.osdu_jwt = Option.some j → j ≠ "" → s.osdu_jwt_expires_at = Option.some e →
      now + early < e →
      TokenManagerI.ensure_valid_jwt s now early resp = Except.ok (Option.some j, s, 0)) ∧
    (resp.access_token = Option.some tok →
      (s.osdu_jwt = Option.none ∨ s.osdu_jwt = Option.some "" ∨
        s.osdu_jwt_expires_at = Option.none ∨
        (∃ e0, s.osdu_jwt_expires_at = Option.some e0 ∧ e0 - now ≤ early)) →
      TokenManagerI.ensure_valid_jwt s now early resp =
        Except.ok (Option.some tok,
          { s with
            osdu_jwt := Option.some tok
            osdu_jwt_expires_at := Option.some (now + resp.expires_in.getD 3600)
            envJwt := tok
            envExp := Option.some (now + resp.expires_in.getD 3600) }, 1)) ∧
    (∀ p t0, a.cache = Option.some (p, t0) → now - t0 < 3300 →
      (AuthI.get_access_token a now oracle).2.2 = 0) ∧
    (a.cache = Option.none → (AuthI.get_access_token a now oracle).2.2 = 1) ∧
    (∀ p t0, a.cache = Option.some (p, t0) → 3300 ≤ now - t0 →
      (AuthI.get_access_token a now oracle).2.2 = 1) := by
  obtain ⟨g1, g2, g3⟩ := get_access_token_fetches a now oracle
  exact ⟨fun hj hne he hfresh =>
      ensure_valid_jwt_cached s now early resp j e hl hj hne he hearly hfresh,
    fun hresp hcond => ensure_valid_jwt_refresh s now early resp tok hl hresp hearly hcond,
    g1, g2, g3⟩

/-- Counterexample to claim C1 as stated: at time 0 the stored expiry 10000
exceeds now + 120 (the default early-refresh margin) by a wide margin, yet
get_access_token still issues an HTTP token fetch, because its fetch is
gated by the empty st.cache_data entry and not by the stored expiry. -/
theorem claim_C1_cex :
    c1CexState.osdu_expires_at = Option.some 10000 ∧ (0 : Int) + 120 < 10000 ∧
    (AuthI.get_access_token c1CexState 0
      { access_token := "A", expires_in := Option.some 3600 }).2.2 = 1 := by
  refine ⟨rfl, by decide, ?_⟩
  exact (get_access_token_fetches c1CexState 0
    { access_token := "A", expires_in := Option.some 3600 }).2.1 rfl

/-- Witness for amended claim C1: at now = 0 with margin 120 the cached
token J (expiry 1000) is returned unchanged with no fetch, while at
now = 900 (within the margin) one fetch happens and the new token is
stored with expiry 900 + 3600 and mirrored to .env. -/
theorem claim_C1_witness :
    TokenManagerI.ensure_valid_jwt c1WitnessState 0 120
        { access_token := Option.some "K", expires_in := Option.none } =
      Except.ok (Option.some "J", c1WitnessState, 0) ∧
    TokenManagerI.ensure_valid_jwt c1WitnessState 900 120
        { access_token := Option.some "K", expires_in := Option.none } =
      Except.ok (Option.some "K",
        { c1WitnessState with
          osdu_jwt := Option.some "K"
          osdu_jwt_expires_at := Option.some 4500
          envJwt := "K"
          envExp := Option.some 4500 }, 1) :=
  ⟨((claim_C1 c1WitnessState c1CexState 0 120
        { access_token := Option.some "K", expires_in := Option.none }
        { access_token := "A", expires_in := Option.none } "K" "J" 1000
        rfl (by decide)).1 rfl (by decide) rfl (by decide)),
    by
      have h := (claim_C1 c1WitnessState c1CexState 900 120
        { access_token := Option.some "K", expires_in := Option.none }
        { access_token := "A", expires_in := Option.none } "K" "J" 1000
        rfl (by decide)).2.1 rfl
        (Or.inr (Or.inr (Or.inr ⟨1000, rfl, by decide⟩)))
      simpa using h⟩

/-- Claim C9: on a rerun (the once-per-session .env load already done), when
the token obtained from the cache equals the one already stored in session
state and the stored expiry is still in the future, get_access_token leaves
osdu_token and osdu_expires_at unchanged — the expiry timer is not reset. -/
theorem claim_C9 (s : AuthI.AuthState) (now : Int) (oracle : AuthI.TokenPayload)
    (tk : String) (e : Int)
    (hl : s.osdu_loaded_env = true)
    (htok : s.osdu_token = Option.some tk)
    (hexp : s.osdu_expires_at = Option.some e)
    (hfut : now < e)
    (hmatch : (AuthI.fetch_access_token_cached s now oracle).1.access_token = tk) :
    ((AuthI.get_access_token s now oracle).2.1).osdu_token = s.osdu_token ∧
    ((AuthI.get_access_token s now oracle).2.1).osdu_expires_at = s.osdu_expires_at := by
  obtain ⟨hf1, hf2⟩ := fetch_cached_frame s now oracle
  unfold AuthI.get_access_token
  rw [load_env_once_loaded s now hl]
  have hnot : ¬(e ≤ now) := by omega
  simp only [hf1, hf2, htok, hexp, hmatch, ne_eq]
  simp only [Option.some.injEq, not_true_eq_false, Bool.false_or, decide_eq_true_eq,
    decide_eq_false_iff_not]
  rw [if_neg]
  · exact ⟨hf1.trans htok, hf2.trans hexp⟩
  · simp [hnot]

/-- Witness for claim C9: a rerun at time 10 returning the cached token A
leaves the stored token and expiry untouched. -/
theorem claim_C9_witness :
    ((AuthI.get_access_token c9WitnessState 10
        { access_token := "B", expires_in := Option.none }).2.1).osdu_token =
      Option.some "A" ∧
    ((AuthI.get_access_token c9WitnessState 10
        { access_token := "B", expires_in := Option.none }).2.1).osdu_expires_at =
      Option.some 100 := by
  have h := claim_C9 c9WitnessState 10
    { access_token := "B", expires_in := Option.none } "A" 100
    rfl rfl rfl (by decide) rfl
  exact ⟨h.1.trans rfl, h.2.trans rfl⟩

/-- Helper: code-point equality of characters is equality. -/
theorem charToNat_inj {a b : Char} (h : a.toNat = b.toNat) : a = b :=
  Char.eq_of_val_eq (UInt32.ext h)

/-- Helper: lexLt is irreflexive. -/
theorem lexLt_irrefl : ∀ l, PyPrim.lexLt l l = false := by
  intro l
  induction l with
  | nil => rfl
  | cons a as ih => simp [PyPrim.lexLt, ih]

/-- Helper: lexLt is transitive. -/
theorem lexLt_trans : ∀ a b c, PyPrim.lexLt a b = true → PyPrim.lexLt b c = true →
    PyPrim.lexLt a c = true := by
  intro a
  induction a with
  | nil =>
    intro b c hab hbc
    match b, c with
    | [], _ => simp [PyPrim.lexLt] at hab
    | _ :: _, [] => simp [PyPrim.lexLt] at hbc
    | _ :: _, _ :: _ => rfl
  | cons x xs ih =>
    intro b c hab hbc
    match b, c with
    | [], _ => simp [PyPrim.lexLt] at hab
    | _ :: _, [] => simp [PyPrim.lexLt] at hbc
    | y :: ys, z :: zs =>
      simp only [PyPrim.lexLt] at hab hbc ⊢
      by_cases h1 : x.toNat < y.toNat
      · by_cases h2 : y.toNat < z.toNat
        · have : x.toNat < z.toNat := Nat.lt_trans h1 h2
          simp [this]
        · simp only [h2, if_false] at hbc
          by_cases h3 : y.toNat = z.toNat
          · have : x.toNat < z.toNat := h3 ▸ h1
            simp [this]
          · simp [h3] at hbc
      · simp only [h1, if_false] at hab
        by_cases h4 : x.toNat = y.toNat
        · simp only [h4, if_true] at hab
          by_cases h2 : y.toNat < z.toNat
          · have : x.toNat < z.toNat := h4 ▸ h2
            simp [this]
          · simp only [h2, if_false] at hbc
            by_cases h3 : y.toNat = z.toNat
            · have hxz : x.toNat = z.toNat := h4.trans h3
              have hlt : ¬ x.toNat < z.toNat := by omega
              simp only [h3, if_true] at hbc
              simp [hlt, hxz]
              exact ih ys zs hab hbc
            · simp [h3] at hbc
        · simp [h4] at hab

/-- Helper: lexLt is total up to equality. -/
theorem lexLt_connex : ∀ a b, PyPrim.lexLt a b = true ∨ a = b ∨ PyPrim.lexLt b a = true := by
  intro a
  induction a with
  | nil =>
    intro b
    match b with
    | [] => right; left; rfl
    | _ :: _ => left; rfl
  | cons x xs ih =>
    intro b
    match b with
    | [] => right; right; rfl
    | y :: ys =>
      rcases Nat.lt_trichotomy x.toNat y.toNat with h | h | h
      · left; simp [PyPrim.lexLt, h]
      · have hxy : x = y := charToNat_inj h
        subst hxy
        rcases ih ys with h2 | h2 | h2
        · left; simp [PyPrim.lexLt, h2]
        · right; left; rw [h2]
        · right; right; simp [PyPrim.lexLt, h2]
      · right; right
        simp [PyPrim.lexLt, h]

/-- Helper: strLt is irreflexive. -/
theorem strLt_irrefl (s : String) : PyPrim.strLt s s = false :=
  lexLt_irrefl s.data

/-- Helper: strLt is transitive. -/
theorem strLt_trans {a b c : String} (h1 : PyPrim.strLt a b = true)
    (h2 : PyPrim.strLt b c = true) : PyPrim.strLt a c = true :=
  lexLt_trans a.data b.data c.data h1 h2

/-- Helper: strLt is total up to equality. -/
theorem strLt_connex (a b : String) :
    PyPrim.strLt a b = true ∨ a = b ∨ PyPrim.strLt b a = true := by
  rcases lexLt_connex a.data b.data with h | h | h
  · exact Or.inl h
  · exact Or.inr (Or.inl (congrArg String.mk h))
  · exact Or.inr (Or.inr h)

/-- Helper: membership in insertStr. -/
theorem mem_insertStr (x a : String) : ∀ l, a ∈ PyPrim.insertStr x l ↔ a = x ∨ a ∈ l := by
  intro l
  induction l with
  | nil => simp [PyPrim.insertStr]
  | cons y ys ih =>
    simp only [PyPrim.insertStr]
    by_cases h1 : PyPrim.strLt x y = true
    · rw [if_pos h1]
      simp only [List.mem_cons]
    · rw [if_neg h1]
      by_cases h2 : x = y
      · rw [if_pos h2]
        subst h2
        simp only [List.mem_cons]
        tauto
      · rw [if_neg h2]
        simp only [List.mem_cons, ih]
        tauto

/-- Helper: insertStr preserves strict sortedness. -/
theorem pairwise_insertStr (x : String) :
    ∀ l, l.Pairwise (fun a b => PyPrim.strLt a b = true) →
      (PyPrim.insertStr x l).Pairwise (fun a b => PyPrim.strLt a b = true) := by
  intro l
  induction l with
  | nil => intro _; simp [PyPrim.insertStr]
  | cons y ys ih =>
    intro hp
    rw [List.pairwise_cons] at hp
    obtain ⟨hy, hys⟩ := hp
    simp only [PyPrim.insertStr]
    by_cases h1 : PyPrim.strLt x y = true
    · rw [if_pos h1, List.pairwise_cons]
      refine ⟨?_, List.pairwise_cons.mpr ⟨hy, hys⟩⟩
      intro z hz
      rcases List.mem_cons.mp hz with h | h
      · exact h ▸ h1
      · exact strLt_trans h1 (hy z h)
    · rw [if_neg h1]
      by_cases h2 : x = y
      · rw [if_pos h2, List.pairwise_cons]
        exact ⟨hy, hys⟩
      · rw [if_neg h2, List.pairwise_cons]
        have hyx : PyPrim.strLt y x = true := by
          rcases strLt_connex x y with h | h | h
          · exact absurd h h1
          · exact absurd h h2
          · exact h
        refine ⟨?_, ih hys⟩
        intro z hz
        rcases (mem_insertStr x z ys).mp hz with h | h
        · exact h ▸ hyx
        · exact hy z h

/-- Helper: pySortedSet is strictly sorted in Python string order. -/
theorem pairwise_pySortedSet :
    ∀ l, (PyPrim.pySortedSet l).Pairwise (fun a b => PyPrim.strLt a b = true) := by
  intro l
  induction l with
  | nil => simp [PyPrim.pySortedSet]
  | cons x xs ih => exact pairwise_insertStr x _ ih

/-- Helper: pySortedSet has no duplicates. -/
theorem nodup_pySortedSet (l : List String) : (PyPrim.pySortedSet l).Nodup := by
  have h := pairwise_pySortedSet l
  refine h.imp ?_
  intro a b hab heq
  subst heq
  rw [strLt_irrefl a] at hab
  exact Bool.false_ne_true hab

/-- Helper: pySortedSet preserves membership. -/
theorem mem_pySortedSet (a : String) : ∀ l, a ∈ PyPrim.pySortedSet l ↔ a ∈ l := by
  intro l
  induction l with
  | nil => simp [PyPrim.pySortedSet]
  | cons x xs ih =>
    simp only [PyPrim.pySortedSet, mem_insertStr, ih, List.mem_cons]

open EntitlementsM in
/-- Helper: infer_role yields OWNER only from a non-empty explicit role
uppercasing to OWNER or, with no explicit role, from an owner-pattern match
on the lowercased name. -/
theorem infer_role_owner_only (n ex : String) (h : infer_role n ex = "OWNER") :
    (ex ≠ "" ∧ PyPrim.pyUpper ex = "OWNER") ∨
      (ex = "" ∧ reSearch ownerWord (lowerChars n.data) = true) := by
  unfold infer_role at h
  by_cases hex : ex = ""
  · right
    rw [if_neg (by simpa using hex)] at h
    by_cases hro : reSearch ownerWord (lowerChars n.data) = true
    · exact ⟨hex, hro⟩
    · rw [if_neg hro] at h
      by_cases hrv : reSearch viewerWord (lowerChars n.data) = true
      · rw [if_pos hrv] at h
        exact absurd h (by decide)
      · rw [if_neg hrv] at h
        exact absurd h (by decide)
  · left
    rw [if_pos (by simpa using hex)] at h
    exact ⟨hex, h⟩

open EntitlementsM in
/-- Helper: infer_role yields VIEWER only from a non-empty explicit role
uppercasing to VIEWER or, with no explicit role, from a viewer-pattern match
(and no owner-pattern match) on the lowercased name. -/
theorem infer_role_viewer_only (n ex : String) (h : infer_role n ex = "VIEWER") :
    (ex ≠ "" ∧ PyPrim.pyUpper ex = "VIEWER") ∨
      (ex = "" ∧ reSearch viewerWord (lowerChars n.data) = true) := by
  unfold infer_role at h
  by_cases hex : ex = ""
  · right
    rw [if_neg (by simpa using hex)] at h
    by_cases hro : reSearch ownerWord (lowerChars n.data) = true
    · rw [if_pos hro] at h
      exact absurd h (by decide)
    · rw [if_neg hro] at h
      by_cases hrv : reSearch viewerWord (lowerChars n.data) = true
      · exact ⟨hex, hrv⟩
      · rw [if_neg hrv] at h
        exact absurd h (by decide)
  · left
    rw [if_pos (by simpa using hex)] at h
    exact ⟨hex, h⟩

open EntitlementsM PyObj in
/-- Helper: every (email, role) record comes from a dict entry of one of the
payload's selected arrays, whose picked email is that non-empty string and
whose role is computed by infer_role from its explicit role field. -/
theorem records_provenance (payload : List (String × PyVal)) (pr : String × String)
    (h : pr ∈ records payload) :
    ∃ p, p ∈ selectArrays payload ∧ ∃ d : List (String × PyVal),
      PyVal.dict d ∈ p.2 ∧ pick_email d = PyVal.str pr.1 ∧ pr.1 ≠ "" ∧
        pr.2 = infer_role pr.1 (explicitRoleOf d) := by
  unfold records at h
  rw [List.mem_flatMap] at h
  obtain ⟨p, hp, hmem⟩ := h
  rw [List.mem_filterMap] at hmem
  obtain ⟨entry, hentry, hrec⟩ := hmem
  cases entry with
  | str s => simp [entryRecord] at hrec
  | int n => simp [entryRecord] at hrec
  | bool b => simp [entryRecord] at hrec
  | list l => simp [entryRecord] at hrec
  | none => simp [entryRecord] at hrec
  | dict d =>
    refine ⟨p, hp, d, hentry, ?_⟩
    simp only [entryRecord] at hrec
    rcases hpe : pick_email d with s | i | b | l | dd | -
    all_goals rw [hpe] at hrec
    all_goals dsimp only at hrec
    case str =>
      by_cases hs : s = ""
      · rw [if_pos hs] at hrec
        exact absurd hrec (by simp)
      · rw [if_neg hs] at hrec
        have hpr := Option.some.inj hrec
        subst hpr
        exact ⟨rfl, hs, rfl⟩
    all_goals simp at hrec

open EntitlementsM in
/-- Claim C7: for every payload, parse_owner_viewer_from_payload returns
owners, viewers and all_groups as sorted (in Python string order),
duplicate-free lists; every owner and every viewer also appears in
all_groups; and a group is classified OWNER (resp. VIEWER) only when some
dict entry of the payload's selected arrays has that group as its picked
email and either its explicit role field uppercases to OWNER (resp. VIEWER)
or, absent an explicit role, the name matches the owner (resp. viewer)
pattern. -/
theorem claim_C7 (payload : List (String × PyObj.PyVal)) :
    ((parse_owner_viewer_from_payload payload).1.Pairwise
        (fun a b => PyPrim.strLt a b = true) ∧
      (parse_owner_viewer_from_payload payload).1.Nodup) ∧
    ((parse_owner_viewer_from_payload payload).2.1.Pairwise
        (fun a b => PyPrim.strLt a b = true) ∧
      (parse_owner_viewer_from_payload payload).2.1.Nodup) ∧
    ((parse_owner_viewer_from_payload payload).2.2.1.Pairwise
        (fun a b => PyPrim.strLt a b = true) ∧
      (parse_owner_viewer_from_payload payload).2.2.1.Nodup) ∧
    (∀ x, x ∈ (parse_owner_viewer_from_payload payload).1 →
      x ∈ (parse_owner_viewer_from_payload payload).2.2.1) ∧
    (∀ x, x ∈ (parse_owner_viewer_from_payload payload).2.1 →
      x ∈ (parse_owner_viewer_from_payload payload).2.2.1) ∧
    (∀ x, x ∈ (parse_owner_viewer_from_payload payload).1 →
      ∃ p, p ∈ selectArrays payload ∧ ∃ d : List (String × PyObj.PyVal),
        PyObj.PyVal.dict d ∈ p.2 ∧ pick_email d = PyObj.PyVal.str x ∧
          ((explicitRoleOf d ≠ "" ∧ PyPrim.pyUpper (explicitRoleOf d) = "OWNER") ∨
            (explicitRoleOf d = "" ∧ reSearch ownerWord (lowerChars x.data) = true))) ∧
    (∀ x, x ∈ (parse_owner_viewer_from_payload payload).2.1 →
      ∃ p, p ∈ selectArrays payload ∧ ∃ d : List (String × PyObj.PyVal),
        PyObj.PyVal.dict d ∈ p.2 ∧ pick_email d = PyObj.PyVal.str x ∧
          ((explicitRoleOf d ≠ "" ∧ PyPrim.pyUpper (explicitRoleOf d) = "VIEWER") ∨
            (explicitRoleOf d = "" ∧ reSearch viewerWord (lowerChars x.data) = true))) := by
  simp only [parse_owner_viewer_from_payload]
  refine ⟨⟨pairwise_pySortedSet _, nodup_pySortedSet _⟩,
    ⟨pairwise_pySortedSet _, nodup_pySortedSet _⟩,
    ⟨pairwise_pySortedSet _, nodup_pySortedSet _⟩, ?_, ?_, ?_, ?_⟩
  · intro x hx
    rw [mem_pySortedSet] at hx ⊢
    obtain ⟨pr, hpr, hfst⟩ := List.mem_map.mp hx
    exact List.mem_map.mpr ⟨pr, (List.mem_filter.mp hpr).1, hfst⟩
  · intro x hx
    rw [mem_pySortedSet] at hx ⊢
    obtain ⟨pr, hpr, hfst⟩ := List.mem_map.mp hx
    exact List.mem_map.mpr ⟨pr, (List.mem_filter.mp hpr).1, hfst⟩
  · intro x hx
    rw [mem_pySortedSet] at hx
    obtain ⟨pr, hpr, hfst⟩ := List.mem_map.mp hx
    obtain ⟨hmem, hrole⟩ := List.mem_filter.mp hpr
    obtain ⟨p, hp, d, hd, hpe, hne, hinf⟩ := records_provenance payload pr hmem
    have hro : infer_role pr.1 (explicitRoleOf d) = "OWNER" := by
      rw [← hinf]
      exact of_decide_eq_true hrole
    refine ⟨p, hp, d, hd, hfst ▸ hpe, ?_⟩
    have := infer_role_owner_only pr.1 (explicitRoleOf d) hro
    rw [hfst] at this
    exact this
  · intro x hx
    rw [mem_pySortedSet] at hx
    obtain ⟨pr, hpr, hfst⟩ := List.mem_map.mp hx
    obtain ⟨hmem, hrole⟩ := List.mem_filter.mp hpr
    obtain ⟨p, hp, d, hd, hpe, hne, hinf⟩ := records_provenance payload pr hmem
    have hro : infer_role pr.1 (explicitRoleOf d) = "VIEWER" := by
      rw [← hinf]
      exact of_decide_eq_true hrole
    refine ⟨p, hp, d, hd, hfst ▸ hpe, ?_⟩
    have := infer_role_viewer_only pr.1 (explicitRoleOf d) hro
    rw [hfst] at this
    exact this

/-- Witness for claim C7 at a concrete payload: the group classified OWNER
appears in all_groups. -/
theorem claim_C7_witness :
    "data.default.owners@x" ∈
      (EntitlementsM.parse_owner_viewer_from_payload c7Payload).2.2.1 :=
  (claim_C7 c7Payload).2.2.2.1 "data.default.owners@x" (by decide)

/-- Counterexample to claim C8 as stated: validate_wellbore_csv accepts this
parsed header set (ok = True), while the claim's acceptance condition —
case-sensitive V1 containment or case-insensitive borehole containment —
does not hold for it. -/
theorem claim_C8_cex :
    (ValidatorsM.validate_wellbore_csv (Except.ok (c8CexCols, 3))).1 = true ∧
      ¬ ValidatorsM.claimHeaderOk c8CexCols := by
  constructor
  · decide
  · decide

/-- Claim C8 (amended): validate_wellbore_csv never raises; a CSV parse
failure yields (False, message, 0); otherwise ok is True exactly when the
header set contains all seven V1 columns case-sensitively or contains the
five minimal borehole columns after stripping surrounding whitespace and
lowercasing, and the returned row count is the number of parsed data
rows. -/
theorem claim_C8 (parsed : Except String (List String × Nat)) (e : String)
    (cols : List String) (n : Nat) :
    (parsed = Except.error e →
      ValidatorsM.validate_wellbore_csv parsed = (false, "CSV read failed: " ++ e, 0)) ∧
    (parsed = Except.ok (cols, n) →
      ((ValidatorsM.validate_wellbore_csv parsed).1 = true ↔
        ((∀ c ∈ ValidatorsM.REQUIRED_WELLBORE_COLUMNS_V1, c ∈ cols) ∨
          (∀ c ∈ ValidatorsM.REQUIRED_BOREHOLE_MIN,
            c ∈ cols.map ValidatorsM.lowerName))) ∧
      (ValidatorsM.validate_wellbore_csv parsed).2.2 = n) := by
  constructor
  · intro h
    subst h
    rfl
  · intro h
    subst h
    simp only [ValidatorsM.validate_wellbore_csv]
    by_cases h1 : ValidatorsM.REQUIRED_WELLBORE_COLUMNS_V1.all (fun c => cols.contains c) = true
    · rw [if_pos h1]
      constructor
      · simp only [true_iff]
        left
        intro c hc
        have := (List.all_eq_true.mp h1) c hc
        simpa using this
      · rfl
    · rw [if_neg h1]
      by_cases h2 : ValidatorsM.REQUIRED_BOREHOLE_MIN.all
          (fun c => (cols.map ValidatorsM.lowerName).contains c) = true
      · rw [if_pos h2]
        constructor
        · simp only [true_iff]
          right
          intro c hc
          have := (List.all_eq_true.mp h2) c hc
          simpa using this
        · rfl
      · rw [if_neg h2]
        constructor
        · simp only [Bool.false_eq_true, false_iff]
          rintro (hv | hb)
          · refine h1 (List.all_eq_true.mpr ?_)
            intro c hc
            simpa using hv c hc
          · refine h2 (List.all_eq_true.mpr ?_)
            intro c hc
            simpa using hb c hc
        · rfl

/-- Witness for amended claim C8: the exact V1 header is accepted with its
row count, and a parse failure yields (False, message, 0). -/
theorem claim_C8_witness :
    (ValidatorsM.validate_wellbore_csv
        (Except.ok (ValidatorsM.REQUIRED_WELLBORE_COLUMNS_V1, 2))).1 = true ∧
    (ValidatorsM.validate_wellbore_csv
        (Except.ok (ValidatorsM.REQUIRED_WELLBORE_COLUMNS_V1, 2))).2.2 = 2 ∧
    ValidatorsM.validate_wellbore_csv (Except.error "bad bytes") =
      (false, "CSV read failed: bad bytes", 0) := by
  have h := (claim_C8 (Except.ok (ValidatorsM.REQUIRED_WELLBORE_COLUMNS_V1, 2))
    "bad bytes" ValidatorsM.REQUIRED_WELLBORE_COLUMNS_V1 2).2 rfl
  have he := (claim_C8 (Except.error "bad bytes") "bad bytes"
    ValidatorsM.REQUIRED_WELLBORE_COLUMNS_V1 2).1 rfl
  exact ⟨h.1.mpr (Or.inl (by decide)), h.2, he⟩

/-- Helper: digit characters of values below ten are digits. -/
theorem digitChar_isDigit {n : Nat} (h : n < 10) : (Nat.digitChar n).isDigit = true := by
  interval_cases n <;> decide

/-- Helper: dval inverts digitChar below ten. -/
theorem dval_digitChar {n : Nat} (h : n < 10) : PyDT.dval (Nat.digitChar n) = n := by
  interval_cases n <;> decide

/-- Helper: a digit character is not a sign. -/
theorem isDigit_not_sign {c : Char} (h : c.isDigit = true) : ¬(c = '+' ∨ c = '-') := by
  rintro (rfl | rfl) <;> exact absurd h (by decide)

/-- Helper: a digit character is not Z. -/
theorem isDigit_ne_Z {c : Char} (h : c.isDigit = true) : c ≠ 'Z' := by
  rintro rfl
  exact absurd h (by decide)

/-- Helper: both characters of pad2 below 100 are digits. -/
theorem pad2_chars {n : Nat} (h : n ≤ 99) : ∀ c ∈ PyDT.pad2 n, c.isDigit = true := by
  intro c hc
  simp only [PyDT.pad2, List.mem_cons, List.mem_singleton, List.not_mem_nil] at hc
  rcases hc with rfl | rfl | hc
  · exact digitChar_isDigit (by omega)
  · exact digitChar_isDigit (by omega)
  · exact absurd hc (by simp)

/-- Helper: all characters of pad4 below 10000 are digits. -/
theorem pad4_chars {n : Nat} (h : n ≤ 9999) : ∀ c ∈ PyDT.pad4 n, c.isDigit = true := by
  intro c hc
  simp only [PyDT.pad4, List.mem_cons, List.mem_singleton, List.not_mem_nil] at hc
  rcases hc with rfl | rfl | rfl | rfl | hc
  · exact digitChar_isDigit (by omega)
  · exact digitChar_isDigit (by omega)
  · exact digitChar_isDigit (by omega)
  · exact digitChar_isDigit (by omega)
  · exact absurd hc (by simp)

/-- Helper: read2 consumes exactly a pad2 rendering. -/
theorem read2_pad2 {n : Nat} (h : n ≤ 99) (r : List Char) :
    PyDT.read2 (PyDT.pad2 n ++ r) = Option.some (n, r) := by
  have h1 : n / 10 < 10 := by omega
  have h2 : n % 10 < 10 := by omega
  simp [PyDT.pad2, PyDT.read2, digitChar_isDigit h1, digitChar_isDigit h2,
    dval_digitChar h1, dval_digitChar h2]
  omega

/-- Helper: read4 consumes exactly a pad4 rendering. -/
theorem read4_pad4 {n : Nat} (h : n ≤ 9999) (r : List Char) :
    PyDT.read4 (PyDT.pad4 n ++ r) = Option.some (n, r) := by
  have h1 : n / 1000 < 10 := by omega
  have h2 : n / 100 % 10 < 10 := by omega
  have h3 : n / 10 % 10 < 10 := by omega
  have h4 : n % 10 < 10 := by omega
  simp [PyDT.pad4, PyDT.read4, digitChar_isDigit h1, digitChar_isDigit h2,
    digitChar_isDigit h3, digitChar_isDigit h4,
    dval_digitChar h1, dval_digitChar h2, dval_digitChar h3, dval_digitChar h4]
  omega

/-- Helper: expectChar consumes exactly the expected character. -/
theorem expectChar_cons (c : Char) (r : List Char) :
    PyDT.expectChar c (c :: r) = Option.some r := by
  simp [PyDT.expectChar]

/-- Helper: splitAtSign splits a sign-free prefix at the first sign. -/
theorem splitAtSign_here (l : List Char) (sg : Char) (r : List Char)
    (hsg : sg = '+' ∨ sg = '-') (h : ∀ c ∈ l, ¬(c = '+' ∨ c = '-')) :
    PyDT.splitAtSign (l ++ sg :: r) = (l, sg :: r) := by
  induction l with
  | nil => simp [PyDT.splitAtSign, hsg]
  | cons c cs ih =>
    have hc : ¬(c = '+' ∨ c = '-') := h c (List.mem_cons_self c cs)
    have hcs : ∀ x ∈ cs, ¬(x = '+' ∨ x = '-') := fun x hx => h x (List.mem_cons_of_mem c hx)
    simp [PyDT.splitAtSign, hc, ih hcs]

/-- Helper: splitAtSign is a decomposition of its input. -/
theorem splitAtSign_decomp (l : List Char) :
    (PyDT.splitAtSign l).1 ++ (PyDT.splitAtSign l).2 = l := by
  induction l with
  | nil => rfl
  | cons c cs ih =>
    simp only [PyDT.splitAtSign]
    by_cases hc : c = '+' ∨ c = '-'
    · simp [hc]
    · simp [hc, ih]

/-- Helper: the part before the first sign contains no sign. -/
theorem splitAtSign_fst_no_sign (l : List Char) :
    ∀ c ∈ (PyDT.splitAtSign l).1, ¬(c = '+' ∨ c = '-') := by
  induction l with
  | nil => intro c hc; simp [PyDT.splitAtSign] at hc
  | cons x xs ih =>
    intro c hc
    simp only [PyDT.splitAtSign] at hc
    by_cases hx : x = '+' ∨ x = '-'
    · rw [if_pos hx] at hc
      simp at hc
    · rw [if_neg hx] at hc
      simp only [List.mem_cons] at hc
      rcases hc with rfl | hc
      · exact hx
      · exact ih c hc

/-- Helper: parseTime accepts exactly a rendered HH:MM:SS. -/
theorem parseTime_render {hr mi se : Nat} (hhr : hr ≤ 23) (hmi : mi ≤ 59) (hse : se ≤ 59) :
    PyDT.parseTime (PyDT.pad2 hr ++ ':' :: (PyDT.pad2 mi ++ ':' :: PyDT.pad2 se)) =
      Option.some (hr, mi, se, 0) := by
  have e1 := read2_pad2 (show hr ≤ 99 by omega) (':' :: (PyDT.pad2 mi ++ ':' :: PyDT.pad2 se))
  have e2 := read2_pad2 (show mi ≤ 99 by omega) (':' :: PyDT.pad2 se)
  have e3 := read2_pad2 (show se ≤ 99 by omega) ([] : List Char)
  rw [List.append_nil] at e3
  simp [PyDT.parseTime, e1, e2, e3, hhr, hmi, hse]

/-- Helper: parseOffset accepts the +00:00 offset as UTC. -/
theorem parseOffset_utc6 : PyDT.parseOffset PyDT.utc6 = Option.some (Option.some 0) := by
  decide

/-- Helper: the rendered HH:MM:SS characters are sign-free. -/
theorem timeChars_no_sign {hr mi se : Nat} (hhr : hr ≤ 99) (hmi : mi ≤ 99) (hse : se ≤ 99) :
    ∀ c ∈ PyDT.pad2 hr ++ ':' :: (PyDT.pad2 mi ++ ':' :: PyDT.pad2 se),
      ¬(c = '+' ∨ c = '-') := by
  intro c hc
  simp only [List.mem_append, List.mem_cons] at hc
  rcases hc with hc | rfl | hc | rfl | hc
  · exact isDigit_not_sign (pad2_chars hhr c hc)
  · decide
  · exact isDigit_not_sign (pad2_chars hmi c hc)
  · decide
  · exact isDigit_not_sign (pad2_chars hse c hc)

/-- Helper: every month has at most 31 days. -/
theorem daysInMonth_le (y : Int) (m : Nat) : PyDT.daysInMonth y m ≤ 31 := by
  unfold PyDT.daysInMonth
  split <;> try omega
  split <;> omega

/-- Helper: parseTimeTz accepts a rendered HH:MM:SS+00:00 tail. -/
theorem parseTimeTz_render {hr mi se : Nat} (hhr : hr ≤ 23) (hmi : mi ≤ 59) (hse : se ≤ 59) :
    PyDT.parseTimeTz (PyDT.pad2 hr ++ ':' :: (PyDT.pad2 mi ++ ':' ::
        (PyDT.pad2 se ++ PyDT.utc6))) =
      Option.some (hr, mi, se, 0, Option.some 0) := by
  have hT : PyDT.pad2 hr ++ ':' :: (PyDT.pad2 mi ++ ':' :: (PyDT.pad2 se ++ PyDT.utc6)) =
      (PyDT.pad2 hr ++ ':' :: (PyDT.pad2 mi ++ ':' :: PyDT.pad2 se)) ++
        '+' :: ['0', '0', ':', '0', '0'] := by
    simp [PyDT.utc6]
  have hsplit : PyDT.splitAtSign (PyDT.pad2 hr ++ ':' :: (PyDT.pad2 mi ++ ':' ::
      (PyDT.pad2 se ++ PyDT.utc6))) =
      (PyDT.pad2 hr ++ ':' :: (PyDT.pad2 mi ++ ':' :: PyDT.pad2 se), PyDT.utc6) := by
    rw [hT, splitAtSign_here _ '+' _ (Or.inl rfl)
      (timeChars_no_sign (by omega) (by omega) (by omega))]
    rfl
  simp only [PyDT.parseTimeTz, hsplit]
  rw [parseTime_render hhr hmi hse, parseOffset_utc6]

/-- Helper: parseNoZ accepts a fully rendered UTC timestamp. -/
theorem parseNoZ_render {y mo da hr mi se : Nat}
    (hy1 : 1 ≤ y) (hy : y ≤ 9999) (hmo1 : 1 ≤ mo) (hmo : mo ≤ 12)
    (hda1 : 1 ≤ da) (hda : da ≤ PyDT.daysInMonth (y : Int) mo)
    (hhr : hr ≤ 23) (hmi : mi ≤ 59) (hse : se ≤ 59) :
    PyDT.parseNoZ (PyDT.pad4 y ++ '-' :: (PyDT.pad2 mo ++ '-' :: (PyDT.pad2 da ++
        'T' :: (PyDT.pad2 hr ++ ':' :: (PyDT.pad2 mi ++ ':' ::
          (PyDT.pad2 se ++ PyDT.utc6)))))) =
      Option.some ⟨(y : Int), mo, da, hr, mi, se, 0, Option.some 0⟩ := by
  have hda99 : da ≤ 99 := by
    have := daysInMonth_le (y : Int) mo
    omega
  simp only [PyDT.parseNoZ]
  rw [read4_pad4 hy]
  try dsimp only
  rw [expectChar_cons]
  try dsimp only
  rw [read2_pad2 (show mo ≤ 99 by omega)]
  try dsimp only
  rw [expectChar_cons]
  try dsimp only
  rw [read2_pad2 hda99]
  try dsimp only
  rw [if_pos ⟨hy1, hmo1, hmo, hda1, hda⟩]
  try dsimp only
  rw [if_pos (Or.inl rfl)]
  rw [parseTimeTz_render hhr hmi hse]

/-- Helper: replacePlus passes over a character that is not a plus. -/
theorem replacePlus_cons_ne (c : Char) (rest : List Char) (h : c ≠ '+') :
    PyDT.replacePlus (c :: rest) = c :: PyDT.replacePlus rest := by
  rw [PyDT.replacePlus.eq_def]
  split
  · next heq => exact absurd (List.head_eq_of_cons_eq heq) h
  · next c2 r2 heq =>
    obtain ⟨h1, h2⟩ := List.cons.inj heq
    subst h1
    subst h2
    rfl
  · next heq => exact absurd heq (by simp)

/-- Helper: appending "+00:00" to a plus-free prefix and replacing yields the
prefix with a Z appended. -/
theorem replacePlus_no_plus (l : List Char) (h : '+' ∉ l) :
    PyDT.replacePlus (l ++ PyDT.utc6) = l ++ ['Z'] := by
  induction l with
  | nil => rfl
  | cons c cs ih =>
    have hc : c ≠ '+' := fun he => h (he ▸ List.mem_cons_self c cs)
    have hcs : '+' ∉ cs := fun hm => h (List.mem_cons_of_mem c hm)
    rw [List.cons_append, replacePlus_cons_ne c _ hc, ih hcs, List.cons_append]

/-- Helper: replaceZchars distributes over append. -/
theorem replaceZ_append (a b : List Char) :
    PyDT.replaceZchars (a ++ b) = PyDT.replaceZchars a ++ PyDT.replaceZchars b := by
  simp [PyDT.replaceZchars]

/-- Helper: replaceZchars is the identity on Z-free lists. -/
theorem replaceZ_no_Z (l : List Char) (h : 'Z' ∉ l) : PyDT.replaceZchars l = l := by
  induction l with
  | nil => rfl
  | cons c cs ih =>
    have hc : c ≠ 'Z' := fun he => h (he ▸ List.mem_cons_self c cs)
    have hcs : 'Z' ∉ cs := fun hm => h (List.mem_cons_of_mem c hm)
    simp [PyDT.replaceZchars, hc] at *
    exact ih hcs

/-- Helper: replaceZchars leaves no Z behind. -/
theorem replaceZ_count_Z (l : List Char) : (PyDT.replaceZchars l).count 'Z' = 0 := by
  induction l with
  | nil => rfl
  | cons c cs ih =>
    by_cases hc : c = 'Z'
    · subst hc
      simp [PyDT.replaceZchars, List.count_cons] at *
      simpa [PyDT.utc6] using ih
    · simp [PyDT.replaceZchars, hc, List.count_cons] at *
      simpa [hc] using ih

/-- Helper: each replaced Z contributes one plus. -/
theorem replaceZ_count_plus (l : List Char) :
    (PyDT.replaceZchars l).count '+' = l.count '+' + l.count 'Z' := by
  induction l with
  | nil => rfl
  | cons c cs ih =>
    by_cases hc : c = 'Z'
    · subst hc
      rw [show PyDT.replaceZchars ('Z' :: cs) = PyDT.utc6 ++ PyDT.replaceZchars cs from by
        simp [PyDT.replaceZchars]]
      rw [List.count_append, ih]
      simp [PyDT.utc6, List.count_cons]
      omega
    · rw [show PyDT.replaceZchars (c :: cs) = c :: PyDT.replaceZchars cs from by
        simp [PyDT.replaceZchars, hc]]
      simp [List.count_cons, ih, hc]
      by_cases hp : c = '+'
      · simp [hp]
        try omega
      · simp [hp]
        try omega

/-- Helper: the zero offset renders as +00:00. -/
theorem offsetChars_zero : PyDT.offsetChars 0 = PyDT.utc6 := by decide

/-- Helper: the complete format-then-parse round trip of an aware datetime
whose UTC conversion stays in range. -/
theorem parse_format_roundtrip (dt : PyDT.DT) (o : Int)
    (htz : dt.tz = Option.some o)
    (hvu : PyDT.validDT (PyDT.astimezoneUTC dt) = true) :
    ∃ out, PyDT.format_expiry dt = Option.some out ∧
      PyDT.parse_expiry out =
        Option.some (PyDT.dropMicro (PyDT.astimezoneUTC dt)) := by
  simp only [PyDT.validDT, PyDT.validOffset, decide_eq_true_eq] at hvu
  obtain ⟨h1, h2, h3, h4, h5, h6, h7, h8, h9, h10, h11⟩ := hvu
  have hYcast : (((PyDT.astimezoneUTC dt).year.toNat : Int)) = (PyDT.astimezoneUTC dt).year :=
    Int.toNat_of_nonneg (by omega)
  have hY9999 : (PyDT.astimezoneUTC dt).year.toNat ≤ 9999 := by omega
  have hY1 : 1 ≤ (PyDT.astimezoneUTC dt).year.toNat := by omega
  have hda99 : (PyDT.astimezoneUTC dt).day ≤ 99 := by
    have := daysInMonth_le (PyDT.astimezoneUTC dt).year (PyDT.astimezoneUTC dt).month
    omega
  -- the date-time part of the rendering, without the offset
  set base : List Char :=
    PyDT.pad4 (PyDT.astimezoneUTC dt).year.toNat ++ '-' ::
      (PyDT.pad2 (PyDT.astimezoneUTC dt).month ++ '-' ::
        (PyDT.pad2 (PyDT.astimezoneUTC dt).day ++ 'T' ::
          (PyDT.pad2 (PyDT.astimezoneUTC dt).hour ++ ':' ::
            (PyDT.pad2 (PyDT.astimezoneUTC dt).minute ++ ':' ::
              PyDT.pad2 (PyDT.astimezoneUTC dt).second)))) with hbase
  have hclasses : ∀ c ∈ base, c.isDigit = true ∨ c = '-' ∨ c = ':' ∨ c = 'T' := by
    intro c hc
    rw [hbase] at hc
    simp only [List.mem_append, List.mem_cons] at hc
    rcases hc with hc | rfl | hc | rfl | hc | rfl | hc | rfl | hc | rfl | hc
    · exact Or.inl (pad4_chars hY9999 c hc)
    · exact Or.inr (Or.inl rfl)
    · exact Or.inl (pad2_chars (by omega) c hc)
    · exact Or.inr (Or.inl rfl)
    · exact Or.inl (pad2_chars hda99 c hc)
    · exact Or.inr (Or.inr (Or.inr rfl))
    · exact Or.inl (pad2_chars (by omega) c hc)
    · exact Or.inr (Or.inr (Or.inl rfl))
    · exact Or.inl (pad2_chars (by omega) c hc)
    · exact Or.inr (Or.inr (Or.inl rfl))
    · exact Or.inl (pad2_chars (by omega) c hc)
  have hplus : '+' ∉ base := by
    intro hm
    rcases hclasses '+' hm with h | h | h | h
    · exact absurd h (by decide)
    · exact absurd h (by decide)
    · exact absurd h (by decide)
    · exact absurd h (by decide)
  have hZ : 'Z' ∉ base := by
    intro hm
    rcases hclasses 'Z' hm with h | h | h | h
    · exact absurd h (by decide)
    · exact absurd h (by decide)
    · exact absurd h (by decide)
    · exact absurd h (by decide)
  have hmicro0 : (PyDT.dropMicro (PyDT.astimezoneUTC dt)).micro = 0 := rfl
  have htz0 : (PyDT.dropMicro (PyDT.astimezoneUTC dt)).tz = Option.some 0 := rfl
  have htzu : (PyDT.astimezoneUTC dt).tz = Option.some 0 := rfl
  have hiso : PyDT.isoChars (PyDT.dropMicro (PyDT.astimezoneUTC dt)) =
      base ++ PyDT.utc6 := by
    rw [hbase]
    simp [PyDT.isoChars, hmicro0, htz0, htzu, offsetChars_zero, PyDT.dropMicro]
  have hformat : PyDT.format_expiry dt =
      Option.some (String.mk (PyDT.replacePlus
        (PyDT.isoChars (PyDT.dropMicro (PyDT.astimezoneUTC dt))))) := by
    simp only [PyDT.format_expiry, htz]
    rw [if_pos ⟨h1, h2⟩]
  have hrepl : PyDT.replacePlus
      (PyDT.isoChars (PyDT.dropMicro (PyDT.astimezoneUTC dt))) = base ++ ['Z'] := by
    rw [hiso]
    exact replacePlus_no_plus base hplus
  refine ⟨String.mk (base ++ ['Z']), by rw [hformat, hrepl], ?_⟩
  have hne : ¬(String.mk (base ++ ['Z']) = "") := by
    intro he
    have hd : base ++ ['Z'] = [] := by
      have := congrArg String.data he
      simp at this
    simp at hd
  have hlast : (String.mk (base ++ ['Z'])).data.getLast? = Option.some 'Z' := by
    show (base ++ ['Z']).getLast? = Option.some 'Z'
    exact List.getLast?_concat base
  have hreplZ : PyDT.replaceZchars (String.mk (base ++ ['Z'])).data = base ++ PyDT.utc6 := by
    show PyDT.replaceZchars (base ++ ['Z']) = base ++ PyDT.utc6
    rw [replaceZ_append, replaceZ_no_Z base hZ]
    rfl
  have hcount : (base ++ PyDT.utc6).count 'Z' = 0 := by
    rw [List.count_append]
    have hb : base.count 'Z' = 0 := List.count_eq_zero.mpr hZ
    have hu : (PyDT.utc6).count 'Z' = 0 := by decide
    omega
  have hassoc : base ++ PyDT.utc6 =
      PyDT.pad4 (PyDT.astimezoneUTC dt).year.toNat ++ '-' ::
        (PyDT.pad2 (PyDT.astimezoneUTC dt).month ++ '-' ::
          (PyDT.pad2 (PyDT.astimezoneUTC dt).day ++ 'T' ::
            (PyDT.pad2 (PyDT.astimezoneUTC dt).hour ++ ':' ::
              (PyDT.pad2 (PyDT.astimezoneUTC dt).minute ++ ':' ::
                (PyDT.pad2 (PyDT.astimezoneUTC dt).second ++ PyDT.utc6))))) := by
    rw [hbase]
    simp [List.append_assoc]
  have hparseNoZ : PyDT.parseNoZ (base ++ PyDT.utc6) =
      Option.some (PyDT.dropMicro (PyDT.astimezoneUTC dt)) := by
    rw [hassoc, parseNoZ_render hY1 hY9999 h3 h4 h5 (by rw [hYcast]; exact h6) h7 h8 h9]
    rw [hYcast]
    rfl
  unfold PyDT.parse_expiry
  rw [if_neg hne, if_pos hlast]
  unfold PyDT.fromiso
  rw [hreplZ, if_pos hcount, hparseNoZ]

/-- Helper: a successful read2 exposes two digit characters. -/
theorem read2_decomp {l r : List Char} {n : Nat} (h : PyDT.read2 l = Option.some (n, r)) :
    ∃ a b, l = a :: b :: r ∧ a.isDigit = true ∧ b.isDigit = true := by
  match l with
  | [] => simp [PyDT.read2] at h
  | [a] => simp [PyDT.read2] at h
  | a :: b :: rest =>
    simp only [PyDT.read2] at h
    by_cases hd : a.isDigit = true ∧ b.isDigit = true
    · rw [if_pos hd] at h
      have hp := Option.some.inj h
      have hr : rest = r := congrArg Prod.snd hp
      subst hr
      exact ⟨a, b, rfl, hd.1, hd.2⟩
    · rw [if_neg hd] at h
      exact absurd h (by simp)

/-- Helper: a successful read4 exposes four digit characters. -/
theorem read4_decomp {l r : List Char} {n : Nat} (h : PyDT.read4 l = Option.some (n, r)) :
    ∃ a b c d, l = a :: b :: c :: d :: r ∧ a.isDigit = true ∧ b.isDigit = true ∧
      c.isDigit = true ∧ d.isDigit = true := by
  match l with
  | [] => simp [PyDT.read4] at h
  | [a] => simp [PyDT.read4] at h
  | [a, b] => simp [PyDT.read4] at h
  | [a, b, c] => simp [PyDT.read4] at h
  | a :: b :: c :: d :: rest =>
    simp only [PyDT.read4] at h
    by_cases hd : a.isDigit = true ∧ b.isDigit = true ∧ c.isDigit = true ∧ d.isDigit = true
    · rw [if_pos hd] at h
      have hp := Option.some.inj h
      have hr : rest = r := congrArg Prod.snd hp
      subst hr
      exact ⟨a, b, c, d, rfl, hd.1, hd.2.1, hd.2.2.1, hd.2.2.2⟩
    · rw [if_neg hd] at h
      exact absurd h (by simp)

/-- Helper: a successful expectChar exposes the expected character. -/
theorem expectChar_decomp {c : Char} {l r : List Char}
    (h : PyDT.expectChar c l = Option.some r) : l = c :: r := by
  match l with
  | [] => simp [PyDT.expectChar] at h
  | x :: rest =>
    simp only [PyDT.expectChar] at h
    by_cases hx : x = c
    · rw [if_pos hx] at h
      rw [hx, Option.some.inj h]
    · rw [if_neg hx] at h
      exact absurd h (by simp)

/-- Helper: a digit is not a plus. -/
theorem isDigit_ne_plus {c : Char} (h : c.isDigit = true) : ¬(c = '+') :=
  fun he => isDigit_not_sign h (Or.inl he)

/-- Helper: a parsed offset contains at most its own sign as a plus. -/
theorem parseOffset_plus {l : List Char} {tz : Option Int}
    (h : PyDT.parseOffset l = Option.some tz) : l.count '+' ≤ 1 := by
  match l with
  | [] => simp
  | sg :: r0 =>
    simp only [PyDT.parseOffset] at h
    by_cases hsg : sg = '+' ∨ sg = '-'
    case neg => rw [if_neg hsg] at h; exact absurd h (by simp)
    rw [if_pos hsg] at h
    rcases h2 : PyDT.read2 r0 with - | ⟨hh, r1⟩ <;> rw [h2] at h <;> (try dsimp only at h)
    · exact absurd h (by simp)
    obtain ⟨a, b, hr0, ha, hb⟩ := read2_decomp h2
    rcases h3 : PyDT.expectChar ':' r1 with - | r2 <;> rw [h3] at h <;> (try dsimp only at h)
    · exact absurd h (by simp)
    have hr1 : r1 = ':' :: r2 := expectChar_decomp h3
    rcases h4 : PyDT.read2 r2 with - | ⟨mm, r3⟩ <;> rw [h4] at h <;> (try dsimp only at h)
    · exact absurd h (by simp)
    obtain ⟨c, d, hr2, hc, hd⟩ := read2_decomp h4
    by_cases hrange : hh ≤ 23 ∧ mm ≤ 59
    case neg => rw [if_neg hrange] at h; exact absurd h (by simp)
    rw [if_pos hrange] at h
    have hr0count : r0.count '+' = 0 → (sg :: r0).count '+' ≤ 1 := by
      intro hz
      rcases hsg with rfl | rfl <;> simp [List.count_cons, hz]
    apply hr0count
    split at h
    · -- r3 = []
      subst hr2; subst hr1; subst hr0
      simp [List.count_cons, isDigit_ne_plus ha, isDigit_ne_plus hb,
        isDigit_ne_plus hc, isDigit_ne_plus hd]
    · -- r3 = ':' :: r4
      next r4 =>
      rcases h5 : PyDT.read2 r4 with - | ⟨ss, r5⟩ <;> rw [h5] at h <;> (try dsimp only at h)
      · exact absurd h (by simp)
      obtain ⟨e, f, hr4, he, hf⟩ := read2_decomp h5
      by_cases hok : ss ≤ 59 ∧ r5 = []
      case neg => rw [if_neg hok] at h; exact absurd h (by simp)
      rw [hr4, hok.2] at hr2
      subst hr2; subst hr1; subst hr0
      simp [List.count_cons, isDigit_ne_plus ha, isDigit_ne_plus hb,
        isDigit_ne_plus hc, isDigit_ne_plus hd, isDigit_ne_plus he, isDigit_ne_plus hf]
    · -- catch-all arm: the parse failed
      exact absurd h (by simp)

/-- Helper: a parsed time-and-offset tail contains at most one plus. -/
theorem parseTimeTz_plus {l : List Char} {x : Nat × Nat × Nat × Nat × Option Int}
    (h : PyDT.parseTimeTz l = Option.some x) : l.count '+' ≤ 1 := by
  simp only [PyDT.parseTimeTz] at h
  rcases h1 : PyDT.parseTime (PyDT.splitAtSign l).1 with - | t <;> rw [h1] at h <;>
    (try dsimp only at h)
  · exact absurd h (by simp)
  rcases h2 : PyDT.parseOffset (PyDT.splitAtSign l).2 with - | tz <;> rw [h2] at h <;>
    (try dsimp only at h)
  · exact absurd h (by simp)
  have hfst : ((PyDT.splitAtSign l).1).count '+' = 0 :=
    List.count_eq_zero.mpr (fun hm => splitAtSign_fst_no_sign l '+' hm (Or.inl rfl))
  have hsnd := parseOffset_plus h2
  have hdec := splitAtSign_decomp l
  calc l.count '+' = ((PyDT.splitAtSign l).1 ++ (PyDT.splitAtSign l).2).count '+' := by
        rw [hdec]
    _ = ((PyDT.splitAtSign l).1).count '+' + ((PyDT.splitAtSign l).2).count '+' :=
        List.count_append '+' _ _
    _ ≤ 1 := by omega

/-- Helper: a string parseNoZ accepts contains at most one plus. -/
theorem parseNoZ_plus_le {l : List Char} {dt : PyDT.DT}
    (h : PyDT.parseNoZ l = Option.some dt) : l.count '+' ≤ 1 := by
  simp only [PyDT.parseNoZ] at h
  rcases h1 : PyDT.read4 l with - | ⟨y, r1⟩ <;> rw [h1] at h <;> (try dsimp only at h)
  · exact absurd h (by simp)
  obtain ⟨a, b, c, d, hl, ha, hb, hc, hd⟩ := read4_decomp h1
  rcases h2 : PyDT.expectChar '-' r1 with - | r2 <;> rw [h2] at h <;> (try dsimp only at h)
  · exact absurd h (by simp)
  have hr1 : r1 = '-' :: r2 := expectChar_decomp h2
  rcases h3 : PyDT.read2 r2 with - | ⟨mo, r3⟩ <;> rw [h3] at h <;> (try dsimp only at h)
  · exact absurd h (by simp)
  obtain ⟨e, f, hr2, he, hf⟩ := read2_decomp h3
  rcases h4 : PyDT.expectChar '-' r3 with - | r4 <;> rw [h4] at h <;> (try dsimp only at h)
  · exact absurd h (by simp)
  have hr3 : r3 = '-' :: r4 := expectChar_decomp h4
  rcases h5 : PyDT.read2 r4 with - | ⟨da, r5⟩ <;> rw [h5] at h <;> (try dsimp only at h)
  · exact absurd h (by simp)
  obtain ⟨g, k, hr4, hg, hk⟩ := read2_decomp h5
  by_cases hrange : 1 ≤ y ∧ 1 ≤ mo ∧ mo ≤ 12 ∧ 1 ≤ da ∧ da ≤ PyDT.daysInMonth (y : Int) mo
  case neg => rw [if_neg hrange] at h; exact absurd h (by simp)
  rw [if_pos hrange] at h
  have hcount : r5.count '+' ≤ 1 → l.count '+' ≤ 1 := by
    intro h5c
    rw [hl, hr1, hr2, hr3, hr4]
    simp [List.count_cons, isDigit_ne_plus ha, isDigit_ne_plus hb, isDigit_ne_plus hc,
      isDigit_ne_plus hd, isDigit_ne_plus he, isDigit_ne_plus hf, isDigit_ne_plus hg,
      isDigit_ne_plus hk]
    omega
  apply hcount
  rcases hr5 : r5 with - | ⟨sep, tr⟩
  · simp
  · rw [hr5] at h
    (try dsimp only at h)
    by_cases hsep : sep = 'T' ∨ sep = ' '
    case neg => rw [if_neg hsep] at h; exact absurd h (by simp)
    rw [if_pos hsep] at h
    rcases h6 : PyDT.parseTimeTz tr with - | tv <;> rw [h6] at h <;> (try dsimp only at h)
    · exact absurd h (by simp)
    have htr := parseTimeTz_plus h6
    have hsep2 : ¬(sep = '+') := by
      rcases hsep with rfl | rfl <;> decide
    simp [List.count_cons, hsep2]
    omega

/-- Helper: a list ending in its only Z has a Z-free front. -/
theorem replaceZ_single (l : List Char) (h1 : l.count 'Z' = 1)
    (h2 : l.getLast? = Option.some 'Z') :
    PyDT.replaceZchars l = l.dropLast ++ PyDT.utc6 := by
  have hne : l ≠ [] := by
    intro he
    rw [he] at h2
    exact absurd h2 (by simp)
  have hdec : l.dropLast ++ [l.getLast hne] = l := List.dropLast_append_getLast hne
  have hlast : l.getLast hne = 'Z' := by
    have := List.getLast?_eq_getLast l hne
    rw [this] at h2
    exact Option.some.inj h2
  have hcount : (l.dropLast).count 'Z' = 0 := by
    have := congrArg (fun t => List.count 'Z' t) hdec
    simp only [List.count_append, hlast] at this
    simp [List.count_cons] at this
    omega
  have hZfree : 'Z' ∉ l.dropLast := by
    intro hm
    have := List.count_pos_iff.mpr hm
    omega
  conv_lhs => rw [← hdec]
  rw [hlast, replaceZ_append, replaceZ_no_Z _ hZfree]
  rfl

/-- Helper: fromiso of a Z-free list is parseNoZ. -/
theorem fromiso_no_Z (l : List Char) (h : l.count 'Z' = 0) :
    PyDT.fromiso l = PyDT.parseNoZ l := by
  unfold PyDT.fromiso
  rw [if_pos h]

/-- Helper: _parse_expiry returns None on every string fromisoformat
rejects. -/
theorem parse_expiry_invalid (s : String) (h : PyDT.fromiso s.data = Option.none) :
    PyDT.parse_expiry s = Option.none := by
  unfold PyDT.parse_expiry
  by_cases hs : s = ""
  · rw [if_pos hs]
  rw [if_neg hs]
  by_cases hz : s.data.getLast? = Option.some 'Z'
  case neg => rw [if_neg hz]; exact h
  rw [if_pos hz]
  have hmem : 'Z' ∈ s.data := by
    have hne : s.data ≠ [] := by
      intro he
      rw [he] at hz
      exact absurd hz (by simp)
    have := List.getLast?_eq_getLast s.data hne
    rw [this] at hz
    rw [← Option.some.inj hz]
    exact List.getLast_mem hne
  have hpos : 1 ≤ s.data.count 'Z' := List.count_pos_iff.mpr hmem
  by_cases h1 : s.data.count 'Z' = 1
  · -- a single trailing Z: the replacement is exactly what fromiso parses
    have hrepl := replaceZ_single s.data h1 hz
    rw [hrepl]
    have hcount0 : (s.data.dropLast ++ PyDT.utc6).count 'Z' = 0 := by
      have := replaceZ_count_Z s.data
      rw [hrepl] at this
      exact this
    rw [fromiso_no_Z _ hcount0]
    unfold PyDT.fromiso at h
    rw [if_neg (by omega), if_pos ⟨h1, hz⟩] at h
    exact h
  · -- two or more Z: the replacement holds two or more pluses
    have h2 : 2 ≤ s.data.count 'Z' := by omega
    have hcount0 : (PyDT.replaceZchars s.data).count 'Z' = 0 := replaceZ_count_Z s.data
    rw [fromiso_no_Z _ hcount0]
    have hplus : 2 ≤ (PyDT.replaceZchars s.data).count '+' := by
      have := replaceZ_count_plus s.data
      omega
    rcases hp : PyDT.parseNoZ (PyDT.replaceZchars s.data) with - | dt
    · rfl
    · have := parseNoZ_plus_le hp
      omega

/-- Counterexample to claim C4 as stated: the timezone-aware datetime
0001-01-01T00:00:00+01:00 is valid, yet _format_expiry raises OverflowError
(modelled as None) because astimezone(utc) falls before year 1, so the round
trip cannot return its UTC conversion. -/
theorem claim_C4_cex :
    (PyDT.DT.tz c4CexDT).isSome = true ∧
    PyDT.validDT c4CexDT = true ∧
    PyDT.format_expiry c4CexDT = Option.none := by
  refine ⟨rfl, by decide, by decide⟩

/-- Claim C4 (amended): for every timezone-aware datetime whose UTC
conversion stays within the representable year range,
_parse_expiry(_format_expiry(dt)) returns dt converted to UTC with its
microseconds dropped; _parse_expiry returns None for the empty string and
for every string that fromisoformat rejects. -/
theorem claim_C4 (dt : PyDT.DT) (o : Int) (s : String) :
    (dt.tz = Option.some o → PyDT.validDT (PyDT.astimezoneUTC dt) = true →
      ∃ out, PyDT.format_expiry dt = Option.some out ∧
        PyDT.parse_expiry out = Option.some (PyDT.dropMicro (PyDT.astimezoneUTC dt))) ∧
    PyDT.parse_expiry "" = Option.none ∧
    (PyDT.fromiso s.data = Option.none → PyDT.parse_expiry s = Option.none) :=
  ⟨fun htz hvu => parse_format_roundtrip dt o htz hvu, rfl,
    fun h => parse_expiry_invalid s h⟩

/-- Witness for amended claim C4 at the concrete datetime
2026-01-26T14:22:10.123456+05:30 and the concrete invalid string
"garbage". -/
theorem claim_C4_witness :
    (∃ out, PyDT.format_expiry c4WitnessDT = Option.some out ∧
      PyDT.parse_expiry out =
        Option.some (PyDT.dropMicro (PyDT.astimezoneUTC c4WitnessDT))) ∧
    PyDT.parse_expiry "garbage" = Option.none :=
  ⟨(claim_C4 c4WitnessDT 19800 "garbage").1 rfl (by decide),
    (claim_C4 c4WitnessDT 19800 "garbage").2.2 (by decide)⟩

/-- Counterexample to claim C3 as stated: with a non-empty stored token and
the stored expiry "2030-01-01T00:00:00" — which parses as a (naive) ISO
timestamp — load_token_from_env neither restores the pair nor returns
(None, None): the exp > now comparison raises TypeError (naive vs aware). -/
theorem claim_C3_cex :
    (PyDT.parse_expiry "2030-01-01T00:00:00").isSome = true ∧
    TokenStoreS.load_token_from_env "x" "2030-01-01T00:00:00" 0 =
      Except.error () := by
  exact ⟨by decide, rfl⟩

/-- Claim C3 (amended): load_token_from_env restores the persisted pair if
and only if the stored token is non-empty, the stored expiry parses, and
the parsed expiry is timezone-aware and strictly later than now; it returns
(None, None) when the token is empty, the expiry fails to parse, or the
aware expiry is not in the future; and it raises TypeError when the token
is non-empty and the expiry parses timezone-naive. init_token_state is a
no-op once the session is marked loaded and otherwise marks it loaded and
adopts the pair exactly as load_token_from_env does. -/
theorem claim_C3 (s : TokenManagerS.TMSState) (envJwt envExp : String) (now : Int)
    (e : PyDT.DT) (o : Int) :
    (envJwt = "" →
      TokenStoreS.load_token_from_env envJwt envExp now = Except.ok Option.none) ∧
    (PyDT.parse_expiry envExp = Option.none →
      TokenStoreS.load_token_from_env envJwt envExp now = Except.ok Option.none) ∧
    (envJwt ≠ "" → PyDT.parse_expiry envExp = Option.some e → e.tz = Option.some o →
      now < PyDT.toInstant e →
      TokenStoreS.load_token_from_env envJwt envExp now =
        Except.ok (Option.some (envJwt, e))) ∧
    (envJwt ≠ "" → PyDT.parse_expiry envExp = Option.some e → e.tz = Option.some o →
      ¬(now < PyDT.toInstant e) →
      TokenStoreS.load_token_from_env envJwt envExp now = Except.ok Option.none) ∧
    (envJwt ≠ "" → PyDT.parse_expiry envExp = Option.some e → e.tz = Option.none →
      TokenStoreS.load_token_from_env envJwt envExp now = Except.error ()) ∧
    (s.env_loaded = true →
      TokenManagerS.init_token_state s envJwt envExp now = Except.ok s) ∧
    (s.env_loaded = false →
      TokenManagerS.init_token_state s envJwt envExp now =
        match TokenStoreS.load_token_from_env envJwt envExp now with
        | Except.error u => Except.error u
        | Except.ok (Option.some (t0, e0)) =>
          Except.ok { s with
            env_loaded := true
            osdu_jwt := Option.some t0
            osdu_jwt_expires_at := Option.some e0 }
        | Except.ok Option.none => Except.ok { s with env_loaded := true }) := by
  refine ⟨?_, ?_, ?_, ?_, ?_, ?_, ?_⟩
  · intro h
    subst h
    simp [TokenStoreS.load_token_from_env]
  · intro h
    by_cases henv : envJwt = "" <;>
      simp [TokenStoreS.load_token_from_env, henv, h]
  · intro hne hp htz hlt
    simp [TokenStoreS.load_token_from_env, hne, hp, htz, hlt]
  · intro hne hp htz hlt
    simp [TokenStoreS.load_token_from_env, hne, hp, htz, hlt]
  · intro hne hp htz
    simp [TokenStoreS.load_token_from_env, hne, hp, htz]
  · intro hl
    simp [TokenManagerS.init_token_state, hl]
  · intro hl
    unfold TokenManagerS.init_token_state TokenStoreS.load_token_from_env
    rw [if_neg (by simp [hl])]
    by_cases henv : envJwt = ""
    · simp [henv]
    · rcases hp : PyDT.parse_expiry envExp with - | e0
      · simp [henv, hp]
      · rcases htz : e0.tz with - | o0
        · simp [henv, hp, htz]
        · by_cases hlt : now < PyDT.toInstant e0
          · simp [henv, hp, htz, hlt]
          · simp [henv, hp, htz, hlt]

/-- Witness for amended claim C3: a non-empty token with an aware
2030-01-01T00:00:00Z expiry is restored at time 0; a session already marked
env_loaded is left untouched by init_token_state. -/
theorem claim_C3_witness :
    TokenStoreS.load_token_from_env "x" "2030-01-01T00:00:00Z" 0 =
      Except.ok (Option.some ("x", c3WitnessDT)) ∧
    TokenManagerS.init_token_state c3WitnessState "x" "y" 0 =
      Except.ok c3WitnessState :=
  ⟨(claim_C3 c3WitnessState "x" "2030-01-01T00:00:00Z" 0 c3WitnessDT 0).2.2.1
      (by decide) (by decide) rfl (by decide),
    (claim_C3 c3WitnessState "x" "y" 0 c3WitnessDT 0).2.2.2.2.2.1 rfl⟩

end ClaimTheorems
